import Mathlib

/-!
Verification of the CCCTransfer counseling engine.

This file gives a shallow embedding, in Lean 4, of the requirement-audit and
cross-reference engines of the repository (GE audit, major audit, transcript
duplicate handling, recommendation exclusion, multi-target classification and
major discovery), and proves or refutes the specified properties about them.

Conventions of the embedding:
* Python dicts that preserve insertion order are modelled as association
  lists (`List (String × _)`).
* Python sets of course codes are modelled as `List String` with membership
  tested through `List.contains` (course codes compare by string equality,
  exactly as in the source).
* Python floats carrying unit counts and scores are modelled as `ℚ`; every
  arithmetic operation performed on them in the source (sums, comparisons,
  division guarded by a positivity test) is exact on the values that occur.
* String operations from the source (`startswith`, `in`, `split`, `strip`)
  are implemented over `String.data` so that they are executable and
  kernel-reducible.
-/

/-! ## String helpers (Python `str` operations over `List Char`) -/

/-- Python `s.startswith(p)`. -/
def strStartsWith (s p : String) : Bool :=
  p.data.isPrefixOf s.data

/-- Length of a Python string in characters. -/
def strLen (s : String) : Nat :=
  s.data.length

/-- One step of substring search: does `p` occur in `s` (Python `p in s`)? -/
def charListContains : List Char → List Char → Bool
  | _, [] => true
  | [], _ => false
  | c :: rest, p => p.isPrefixOf (c :: rest) || charListContains rest p

/-- Python `p in s` (substring containment). -/
def strContains (s p : String) : Bool :=
  charListContains s.data p.data

/-- Auxiliary for `strSplitOn`: fuel-indexed scan so the recursion is
structural (the fuel starts at `s.length + 1`, enough to consume `s`). -/
def splitOnAux (sep : List Char) : Nat → List Char → List Char → List (List Char)
  | 0, _, acc => [acc.reverse]
  | _ + 1, [], acc => [acc.reverse]
  | fuel + 1, c :: rest, acc =>
    if sep.isPrefixOf (c :: rest) then
      acc.reverse :: splitOnAux sep fuel ((c :: rest).drop sep.length) []
    else
      splitOnAux sep fuel rest (c :: acc)

/-- Python `s.split(sep)` for a non-empty separator. -/
def strSplitOn (s sep : String) : List String :=
  (splitOnAux sep.data (s.data.length + 1) s.data []).map List.asString

/-- Python `s.strip()`. -/
def strTrim (s : String) : String :=
  (((s.data.dropWhile Char.isWhitespace).reverse.dropWhile Char.isWhitespace).reverse).asString

/-- Python `sep.join(parts)`. -/
def joinSep (sep : String) : List String → String
  | [] => ""
  | [p] => p
  | p :: rest => p ++ sep ++ joinSep sep rest

/-! ## Data model (`counseling/models`, `counseling/config.py`) -/

/-- `CourseStatus` enum from `models/course.py`. -/
inductive CourseStatus where
  | completed
  | inProgress
  | failed
  | notTaken
deriving DecidableEq, Repr

/-- `Course` dataclass from `models/course.py`.  The three GE tag lists are
the per-regime area codes attached from the raw-GE files. -/
structure Course where
  code : String
  title : String := ""
  units : ℚ := 0
  grade : Option String := none
  term : String := ""
  status : CourseStatus := CourseStatus.completed
  igetc : List String := []
  cal_getc : List String := []
  csu_ge : List String := []
deriving DecidableEq, Repr

/-- `AreaAuditResult` dataclass from `models/audit.py`. -/
structure AreaAuditResult where
  code : String
  name : String
  required_courses : Nat
  required_units : ℚ
  completed_courses : List Course
  pending_courses : List Course
  is_satisfied : Bool
  notes : String := ""
deriving DecidableEq, Repr

/-- `PASSING_GRADES` from `config.py`. -/
def PASSING_GRADES : List String := ["A", "B", "C", "D", "P", "CR"]

/-- `FAILING_GRADES` from `config.py`. -/
def FAILING_GRADES : List String := ["F", "NP", "NC", "W", "I"]

/-- `CAL_GETC_START_YEAR` from `config.py`. -/
def CAL_GETC_START_YEAR : Nat := 2025

/-- `academic_year_to_code` from `config.py` (`year - 1949`). -/
def academic_year_to_code (year : Nat) : Nat :=
  year - 1949

/-! ## GE audit engine (`engines/ge_audit.py`) -/

/-- `getattr(course, ge_attr_key, [])`: select the GE tag list named by the
attribute key ("igetc", "cal_getc" or "csu_ge"). -/
def geTags (c : Course) (key : String) : List String :=
  if key = "igetc" then c.igetc
  else if key = "cal_getc" then c.cal_getc
  else if key = "csu_ge" then c.csu_ge
  else []

/-- `GEAuditEngine._course_matches_area`: a course satisfies an area code by
exact tag equality, or by prefix when the area code is a single character. -/
def course_matches_area (course : Course) (area_code : String) (ge_attr_key : String) : Bool :=
  (geTags course ge_attr_key).any fun cc =>
    cc == area_code || (strStartsWith cc area_code && strLen area_code == 1)

/-- `GEAuditEngine.determine_ge_pattern`. -/
def determine_ge_pattern (entry_year : Nat) (entry_term : String) : String :=
  if entry_year > CAL_GETC_START_YEAR then "CalGETC"
  else if entry_year = CAL_GETC_START_YEAR
          && (entry_term.data.map Char.toLower).asString ∈ ["fall", "winter"] then "CalGETC"
  else "IGETC"

/-! ### Theorem for C6 -/

/-- C6 — `_course_matches_area` returns true iff the course carries a GE tag
exactly equal to the area code, or a GE tag that starts with the area code
when the area code is a single character; area codes longer than one
character never prefix-match. -/
theorem C6_area_matching (course : Course) (area_code ge_attr_key : String) :
    course_matches_area course area_code ge_attr_key = true ↔
      ∃ cc ∈ geTags course ge_attr_key,
        cc = area_code ∨ (strStartsWith cc area_code = true ∧ strLen area_code = 1) := by
  unfold course_matches_area
  rw [List.any_eq_true]
  constructor
  · rintro ⟨cc, hmem, hcc⟩
    refine ⟨cc, hmem, ?_⟩
    rcases Bool.or_eq_true_iff.mp hcc with h | h
    · exact Or.inl (by simpa using h)
    · rcases Bool.and_eq_true_iff.mp h with ⟨h1, h2⟩
      exact Or.inr ⟨h1, by simpa using h2⟩
  · rintro ⟨cc, hmem, hcc⟩
    refine ⟨cc, hmem, ?_⟩
    rcases hcc with h | ⟨h1, h2⟩
    · exact Bool.or_eq_true_iff.mpr (Or.inl (by simpa using h))
    · exact Bool.or_eq_true_iff.mpr (Or.inr (Bool.and_eq_true_iff.mpr ⟨h1, by simpa using h2⟩))

/-- Witness for C6: a course tagged exactly "5A" satisfies areas "5" and
"5A" but not "5B" or "51", instantiating the characterization. -/
theorem C6_area_matching_witness :
    (∃ cc ∈ geTags { code := "PHYS 1", igetc := ["5A"] } "igetc",
        cc = "5" ∨ (strStartsWith cc "5" = true ∧ strLen "5" = 1)) ∧
    course_matches_area { code := "PHYS 1", igetc := ["5A"] } "5" "igetc" = true ∧
    course_matches_area { code := "PHYS 1", igetc := ["5A"] } "5A" "igetc" = true ∧
    course_matches_area { code := "PHYS 1", igetc := ["5A"] } "5B" "igetc" = false ∧
    course_matches_area { code := "PHYS 1", igetc := ["5A"] } "51" "igetc" = false := by
  refine ⟨⟨"5A", by decide, Or.inr ⟨by decide, by decide⟩⟩, ?_, by decide, by decide, by decide⟩
  exact (C6_area_matching { code := "PHYS 1", igetc := ["5A"] } "5" "igetc").mpr
    ⟨"5A", by decide, Or.inr ⟨by decide, by decide⟩⟩

/-! ## GE audit: schema structures and area auditing -/

/-- Lookup in an (insertion-ordered) dict modelled as an association list. -/
def lookupAssoc {α : Type} : List (String × α) → String → Option α
  | [], _ => none
  | p :: rest, k => if p.1 == k then some p.2 else lookupAssoc rest k

/-- Python `k in d` for a dict modelled as an association list. -/
def hasKeyAssoc {α : Type} : List (String × α) → String → Bool
  | [], _ => false
  | p :: rest, k => p.1 == k || hasKeyAssoc rest k

/-- The `constraints` block of a per-target requirement
(`ge_rules_master.json` schema v2.0). -/
structure Constraints where
  require_one_each_from : List String := []
  require_subareas : List String := []
  require_at_least_one_lab : Bool := false
deriving DecidableEq, Repr

/-- A `per_target.{CSU,UC}` requirement block.  `Option` fields mirror keys
that may be absent from the JSON dict (defaults are applied at use sites,
exactly where the source calls `.get(key, default)`). -/
structure TargetReqs where
  required : Option Bool := none
  min_courses : Option Nat := none
  min_units_semester : Option ℚ := none
  required_subareas : List String := []
  constraints : Constraints := {}
deriving DecidableEq, Repr

/-- One subarea entry of an area's `subareas` dict. -/
structure SubareaInfo where
  name : Option String := none
  min_courses : Option Nat := none
deriving DecidableEq, Repr

/-- One area entry of a pattern's `areas` dict. -/
structure AreaData where
  name : String := ""
  description : String := ""
  per_target : List (String × TargetReqs) := []
  subareas : List (String × SubareaInfo) := []
  disabled : Bool := false
deriving DecidableEq, Repr

/-- One entry of the `subarea_results` list built by
`_audit_area_with_subareas_v2`. -/
structure SubareaResult where
  code : String
  name : String
  required : Nat
  completed : List Course
  pending : List Course
  satisfied : Bool
deriving DecidableEq, Repr

/-- Python `sum(c.units for c in cs)`. -/
def sumUnits (cs : List Course) : ℚ :=
  cs.foldl (fun acc c => acc + c.units) 0

/-- The de-duplication loop of `_audit_area_with_subareas_v2`: keep the first
occurrence of each course code. -/
def dedupByCodeAux : List Course → List String → List Course
  | [], _ => []
  | c :: rest, seen =>
    if seen.contains c.code then dedupByCodeAux rest seen
    else c :: dedupByCodeAux rest (c.code :: seen)

/-- De-duplicate courses across subareas by code. -/
def dedupByCode (cs : List Course) : List Course :=
  dedupByCodeAux cs []

/-- `GEAuditEngine._audit_area_with_subareas_v2`. -/
def audit_area_with_subareas_v2 (area_code area_name description : String)
    (subareas_dict : List (String × SubareaInfo)) (min_courses : Nat) (min_units : ℚ)
    (required_subareas : List String) (constraints : Constraints)
    (completed in_progress : List Course) (ge_attr_key : String) : AreaAuditResult :=
  let subareas_to_check0 :=
    if required_subareas ≠ [] then required_subareas else subareas_dict.map Prod.fst
  let subareas_to_check1 :=
    if constraints.require_one_each_from ≠ [] then constraints.require_one_each_from
    else subareas_to_check0
  let subareas_to_check :=
    if constraints.require_subareas ≠ [] then constraints.require_subareas
    else subareas_to_check1
  let subarea_results := subareas_to_check.map fun sub_code =>
    let sub_info := (lookupAssoc subareas_dict sub_code).getD {}
    let sub_name := sub_info.name.getD sub_code
    let sub_min := sub_info.min_courses.getD 1
    let matching_completed := completed.filter (course_matches_area · sub_code ge_attr_key)
    let matching_pending := in_progress.filter (course_matches_area · sub_code ge_attr_key)
    { code := sub_code, name := sub_name, required := sub_min,
      completed := matching_completed, pending := matching_pending,
      satisfied := decide (sub_min ≤ matching_completed.length) : SubareaResult }
  let all_completed := (subarea_results.map (·.completed)).flatten
  let all_pending := (subarea_results.map (·.pending)).flatten
  let labState : Bool × List SubareaResult :=
    if constraints.require_at_least_one_lab then
      let lab_courses := completed.filter (course_matches_area · "5C" ge_attr_key)
      if decide (1 ≤ lab_courses.length) then (true, subarea_results)
      else (false, subarea_results ++
        [{ code := "5C", name := "Laboratory", required := 1,
           completed := lab_courses, pending := [], satisfied := false }])
    else (true, subarea_results)
  let lab_satisfied := labState.1
  let subarea_results := labState.2
  let unique_completed := dedupByCode all_completed
  let unique_pending := dedupByCode all_pending
  let all_subs_satisfied := subarea_results.all (·.satisfied)
  let total_courses := unique_completed.length
  let total_units := sumUnits unique_completed
  let is_satisfied := all_subs_satisfied && decide (min_courses ≤ total_courses) &&
    decide (min_units ≤ total_units) && lab_satisfied
  let sub_notes := joinSep " | " (subarea_results.map fun s =>
    s.code ++ " (" ++ s.name ++ "): " ++ (if s.satisfied then "✓" else "✗"))
  { code := area_code, name := area_name,
    required_courses := min_courses, required_units := min_units,
    completed_courses := unique_completed, pending_courses := unique_pending,
    is_satisfied := is_satisfied,
    notes := if sub_notes ≠ "" then "Subareas: " ++ sub_notes else description }

/-- `GEAuditEngine._audit_area_v2`. -/
def audit_area_v2 (area_code : String) (area_data : AreaData)
    (completed in_progress : List Course) (ge_attr_key target_key : String) : AreaAuditResult :=
  let name := area_data.name
  let description := area_data.description
  let target_reqs := (lookupAssoc area_data.per_target target_key).getD {}
  if target_reqs.required = some false then
    { code := area_code, name := name, required_courses := 0, required_units := 0,
      completed_courses := [], pending_courses := [], is_satisfied := true,
      notes := "Not required for " ++ target_key }
  else
    let min_courses := target_reqs.min_courses.getD 1
    let min_units := target_reqs.min_units_semester.getD 3
    let required_subareas := target_reqs.required_subareas
    let constraints := target_reqs.constraints
    if required_subareas ≠ [] ∨ area_data.subareas ≠ [] then
      audit_area_with_subareas_v2 area_code name description area_data.subareas
        min_courses min_units required_subareas constraints completed in_progress ge_attr_key
    else
      let matching_completed := completed.filter (course_matches_area · area_code ge_attr_key)
      let matching_pending := in_progress.filter (course_matches_area · area_code ge_attr_key)
      { code := area_code, name := name, required_courses := min_courses,
        required_units := min_units, completed_courses := matching_completed,
        pending_courses := matching_pending,
        is_satisfied := decide (min_courses ≤ matching_completed.length),
        notes := description }

/-! ### Theorems for C1 -/

/-- Concrete simple area (no subareas) used to refute C1: CSU block asks for
1 course and 3 units. -/
def c1Area : AreaData :=
  { name := "Mathematical Concepts",
    per_target := [("CSU", { min_courses := some 1, min_units_semester := some 3 })] }

/-- A completed 2-unit course tagged "2A". -/
def c1Course : Course :=
  { code := "MATH 13", units := 2, igetc := ["2A"] }

/-- C1 counterexample — for an area audited without subareas, `is_satisfied`
is set from the course count alone: the area is satisfied although the
completed units (2) fall short of `required_units` (3), refuting
`is_satisfied ⇒ completed_units ≥ required_units`. -/
theorem C1_counterexample :
    (audit_area_v2 "2A" c1Area [c1Course] [] "igetc" "CSU").is_satisfied = true ∧
    ¬ ((audit_area_v2 "2A" c1Area [c1Course] [] "igetc" "CSU").required_units ≤
        sumUnits (audit_area_v2 "2A" c1Area [c1Course] [] "igetc" "CSU").completed_courses) := by
  have hc : (audit_area_v2 "2A" c1Area [c1Course] [] "igetc" "CSU").completed_courses
      = [c1Course] := by rfl
  have hu : (audit_area_v2 "2A" c1Area [c1Course] [] "igetc" "CSU").required_units = 3 := by rfl
  refine ⟨by decide, ?_⟩
  rw [hc, hu]
  have : sumUnits [c1Course] = 2 := by
    simp [sumUnits, c1Course]
  rw [this]
  norm_num

/-- C1 amended — whenever an audited GE area has `is_satisfied` true, the
completed courses matched to it number at least `required_courses`; the unit
threshold `required_units ≤ completed units` is additionally guaranteed
whenever the area is audited through the subarea path (a non-empty
`required_subareas` list or a non-empty `subareas` dict), and in the
"not required for this target" path; for a simple area only the course-count
bound is enforced. -/
theorem C1_ge_area_satisfaction (area_code : String) (ad : AreaData)
    (completed in_progress : List Course) (key tk : String)
    (h : (audit_area_v2 area_code ad completed in_progress key tk).is_satisfied = true) :
    (audit_area_v2 area_code ad completed in_progress key tk).required_courses ≤
      (audit_area_v2 area_code ad completed in_progress key tk).completed_courses.length ∧
    ((((lookupAssoc ad.per_target tk).getD {}).required = some false ∨
      ((lookupAssoc ad.per_target tk).getD {}).required_subareas ≠ [] ∨ ad.subareas ≠ []) →
      (audit_area_v2 area_code ad completed in_progress key tk).required_units ≤
        sumUnits (audit_area_v2 area_code ad completed in_progress key tk).completed_courses) := by
  unfold audit_area_v2 at *
  set tr := (lookupAssoc ad.per_target tk).getD {} with htr
  by_cases hreq : tr.required = some false
  · simp only [hreq, if_pos rfl] at h ⊢
    exact ⟨Nat.le_refl 0, fun _ => le_refl (0 : ℚ)⟩
  · simp only [if_neg hreq] at h ⊢
    by_cases hsub : tr.required_subareas ≠ [] ∨ ad.subareas ≠ []
    · simp only [if_pos hsub] at h ⊢
      unfold audit_area_with_subareas_v2 at h ⊢
      simp only at h ⊢
      rcases Bool.and_eq_true_iff.mp h with ⟨h123, _hlab⟩
      rcases Bool.and_eq_true_iff.mp h123 with ⟨h12, hunits⟩
      rcases Bool.and_eq_true_iff.mp h12 with ⟨_hsubs, hcount⟩
      exact ⟨of_decide_eq_true hcount, fun _ => of_decide_eq_true hunits⟩
    · simp only [if_neg hsub] at h ⊢
      refine ⟨of_decide_eq_true h, fun hc => ?_⟩
      rcases hc with hc | hc
      · exact absurd hc hreq
      · exact absurd hc hsub

/-- Witness for C1's amended theorem: a simple CSU area requiring one course,
satisfied by one completed matching course. -/
theorem C1_ge_area_satisfaction_witness :
    (audit_area_v2 "2A" c1Area [c1Course] [] "igetc" "CSU").is_satisfied = true ∧
    (audit_area_v2 "2A" c1Area [c1Course] [] "igetc" "CSU").required_courses ≤
      (audit_area_v2 "2A" c1Area [c1Course] [] "igetc" "CSU").completed_courses.length :=
  ⟨by decide, (C1_ge_area_satisfaction "2A" c1Area [c1Course] [] "igetc" "CSU" (by decide)).1⟩

/-! ## Transcript parsing (`data/parser.py`) -/

/-- One raw course entry of the transcript JSON. -/
structure RawCourse where
  code : String
  title : String := ""
  grade : Option String := none
  status_str : String := ""
  units_completed : ℚ := 0
  units_enrolled : ℚ := 0
  term : String := ""
deriving DecidableEq, Repr

/-- The status-determination logic of `TranscriptParser._parse_course`:
explicit "in_progress" status or a missing grade means enrolled; a passing
grade means completed; a failing or unknown grade means failed. -/
def parse_course_status (grade : Option String) (status_str : String) : CourseStatus :=
  if status_str = "in_progress" then CourseStatus.inProgress
  else
    match grade with
    | none => CourseStatus.inProgress
    | some g =>
      if PASSING_GRADES.contains g then CourseStatus.completed
      else if FAILING_GRADES.contains g then CourseStatus.failed
      else CourseStatus.failed

/-- `TranscriptParser._parse_course`.  The GE enrichment lookup
(`loader.get_course_ge_attributes`) is passed in as a function from course
code to the three tag lists. -/
def parse_course (geAttrs : String → List String × List String × List String)
    (rc : RawCourse) : Course :=
  { code := rc.code, title := rc.title,
    units := if rc.units_completed = 0 then rc.units_enrolled else rc.units_completed,
    grade := rc.grade, term := rc.term,
    status := parse_course_status rc.grade rc.status_str,
    igetc := (geAttrs rc.code).1,
    cal_getc := (geAttrs rc.code).2.1,
    csu_ge := (geAttrs rc.code).2.2 }

/-- The mutable state of `TranscriptParser.parse`'s loop. -/
structure ParseState where
  completed : List Course := []
  in_progress : List Course := []
  failed : List Course := []
  all_courses : List (String × Course) := []
deriving DecidableEq, Repr

/-- Python dict assignment `d[k] = v`: update in place when the key exists,
append otherwise. -/
def setAssoc {α : Type} (l : List (String × α)) (k : String) (v : α) : List (String × α) :=
  if hasKeyAssoc l k then
    l.map fun p => if p.1 == k then (k, v) else p
  else l ++ [(k, v)]

/-- The store-and-categorize tail of the `parse` loop body. -/
def storeCourse (st : ParseState) (course : Course) : ParseState :=
  let st := { st with all_courses := setAssoc st.all_courses course.code course }
  if course.status = CourseStatus.completed then
    { st with completed := st.completed ++ [course] }
  else if course.status = CourseStatus.inProgress then
    { st with in_progress := st.in_progress ++ [course] }
  else if course.status = CourseStatus.failed then
    { st with failed := st.failed ++ [course] }
  else st

/-- "Remove from previous category list" step of the `parse` loop. -/
def removeFromCategory (st : ParseState) (existing_status : CourseStatus)
    (code : String) : ParseState :=
  if existing_status = CourseStatus.inProgress then
    { st with in_progress := st.in_progress.filter fun x => !(x.code == code) }
  else if existing_status = CourseStatus.failed then
    { st with failed := st.failed.filter fun x => !(x.code == code) }
  else st

/-- One iteration of the `TranscriptParser.parse` course loop, including the
duplicate-handling branch. -/
def parse_step (geAttrs : String → List String × List String × List String)
    (st : ParseState) (rc : RawCourse) : ParseState :=
  let course := parse_course geAttrs rc
  match lookupAssoc st.all_courses course.code with
  | some existing =>
    if existing.status = CourseStatus.completed then st
    else if course.status = CourseStatus.completed then
      storeCourse (removeFromCategory st existing.status course.code) course
    else if existing.status = CourseStatus.inProgress ∧ course.status = CourseStatus.failed then
      st
    else storeCourse st course
  | none => storeCourse st course

/-- `TranscriptParser.parse`, starting from the empty student state. -/
def transcript_parse (geAttrs : String → List String × List String × List String)
    (courses_raw : List RawCourse) : ParseState :=
  courses_raw.foldl (parse_step geAttrs) {}

/-- The precedence COMPLETED > IN_PROGRESS > FAILED as a rank. -/
def statusRank : CourseStatus → Nat
  | CourseStatus.completed => 2
  | CourseStatus.inProgress => 1
  | CourseStatus.failed => 0
  | CourseStatus.notTaken => 0

/-- Maximum of two statuses under the precedence order (left-biased on ties). -/
def maxStatus (a b : CourseStatus) : CourseStatus :=
  if statusRank a < statusRank b then b else a

/-- Fold `maxStatus` over the statuses of successive attempts, starting from
an optional previously recorded status. -/
def statusMaxFoldFrom (init : Option CourseStatus) (l : List CourseStatus) : Option CourseStatus :=
  l.foldl (fun acc s => some (match acc with | none => s | some t => maxStatus t s)) init

/-- Precedence-fold of the statuses of a list of attempts. -/
def statusMaxFold (l : List CourseStatus) : Option CourseStatus :=
  statusMaxFoldFrom none l

/-! ### Lemmas and theorems for C4 -/

/-- `_parse_course` never produces the NOT_TAKEN status. -/
theorem parse_course_status_ne_notTaken (grade : Option String) (status_str : String) :
    parse_course_status grade status_str ≠ CourseStatus.notTaken := by
  unfold parse_course_status
  split_ifs <;> first
    | exact fun h => CourseStatus.noConfusion h
    | (cases grade <;> simp <;> split_ifs <;> simp)

/-- Lookup at key `k` after replacing the value stored under `k`. -/
theorem lookupAssoc_map_replace {α : Type} (l : List (String × α)) (k : String) (v : α) :
    lookupAssoc (l.map fun p => if p.1 == k then (k, v) else p) k =
      if hasKeyAssoc l k then some v else none := by
  induction l with
  | nil => rfl
  | cons p rest ih =>
    by_cases hp : p.1 == k
    · simp [lookupAssoc, hasKeyAssoc, hp]
    · simp [lookupAssoc, hasKeyAssoc, hp]
      simpa using ih

/-- Replacement at key `k` does not change a lookup at a different key. -/
theorem lookupAssoc_map_replace_ne {α : Type} (l : List (String × α)) (k x : String) (v : α)
    (hxk : x ≠ k) :
    lookupAssoc (l.map fun p => if p.1 == k then (k, v) else p) x = lookupAssoc l x := by
  induction l with
  | nil => rfl
  | cons p rest ih =>
    by_cases hp : p.1 == k
    · have hp1 : p.1 = k := by simpa using hp
      have hkx : ¬ (k = x) := fun hh => hxk hh.symm
      simp [lookupAssoc, hp1, hkx]
      simpa using ih
    · by_cases hx : p.1 == x
      · simp [lookupAssoc, hp, hx]
      · simp [lookupAssoc, hp, hx]
        simpa using ih

/-- Appending a fresh binding: lookup at the new key finds it when the key
was absent. -/
theorem lookupAssoc_append_single {α : Type} (l : List (String × α)) (k : String) (v : α)
    (h : hasKeyAssoc l k = false) :
    lookupAssoc (l ++ [(k, v)]) k = some v := by
  induction l with
  | nil => simp [lookupAssoc]
  | cons p rest ih =>
    simp only [hasKeyAssoc, Bool.or_eq_false_iff] at h
    have h1 : ¬ (p.1 = k) := by simpa using h.1
    simp [lookupAssoc, h1, ih h.2]

/-- Appending a binding for `k` does not change a lookup at `x ≠ k`. -/
theorem lookupAssoc_append_single_ne {α : Type} (l : List (String × α)) (k x : String) (v : α)
    (hxk : x ≠ k) :
    lookupAssoc (l ++ [(k, v)]) x = lookupAssoc l x := by
  induction l with
  | nil =>
    have hkx : ¬ (k = x) := fun hh => hxk hh.symm
    simp [lookupAssoc, hkx]
  | cons p rest ih =>
    by_cases hp : p.1 == x
    · simp [lookupAssoc, hp]
    · simp [lookupAssoc, hp]
      simpa using ih

/-- Looking up the assigned key after `d[k] = v` yields `v`. -/
theorem lookupAssoc_setAssoc_self {α : Type} (l : List (String × α)) (k : String) (v : α) :
    lookupAssoc (setAssoc l k v) k = some v := by
  unfold setAssoc
  by_cases h : hasKeyAssoc l k
  · rw [if_pos h, lookupAssoc_map_replace, if_pos h]
  · rw [if_neg h, lookupAssoc_append_single l k v (by simpa using h)]

/-- Looking up a different key after `d[k] = v` is unchanged. -/
theorem lookupAssoc_setAssoc_ne {α : Type} (l : List (String × α)) (k x : String) (v : α)
    (hxk : x ≠ k) :
    lookupAssoc (setAssoc l k v) x = lookupAssoc l x := by
  unfold setAssoc
  by_cases h : hasKeyAssoc l k
  · rw [if_pos h, lookupAssoc_map_replace_ne l k x v hxk]
  · rw [if_neg h, lookupAssoc_append_single_ne l k x v hxk]

/-- Any entry of `setAssoc l k v` is an old entry or the new binding. -/
theorem mem_setAssoc {α : Type} {l : List (String × α)} {k : String} {v : α}
    {p : String × α} (hp : p ∈ setAssoc l k v) : p ∈ l ∨ p = (k, v) := by
  unfold setAssoc at hp
  by_cases h : hasKeyAssoc l k
  · rw [if_pos h] at hp
    rcases List.mem_map.mp hp with ⟨q, hq, hqe⟩
    by_cases hqk : q.1 == k
    · right
      rw [if_pos hqk] at hqe
      exact hqe.symm
    · left
      rw [if_neg hqk] at hqe
      exact hqe ▸ hq
  · rw [if_neg h] at hp
    rcases List.mem_append.mp hp with h1 | h1
    · exact Or.inl h1
    · exact Or.inr (List.mem_singleton.mp h1)

/-- A successful lookup comes from an entry of the list. -/
theorem lookupAssoc_mem {α : Type} {l : List (String × α)} {k : String} {v : α}
    (h : lookupAssoc l k = some v) : ∃ p ∈ l, p.2 = v := by
  induction l with
  | nil => exact absurd h (by simp [lookupAssoc])
  | cons p rest ih =>
    by_cases hp : p.1 == k
    · refine ⟨p, List.mem_cons_self _ _, ?_⟩
      simpa [lookupAssoc, hp] using h
    · rcases ih (by simpa [lookupAssoc, hp] using h) with ⟨q, hq, hqv⟩
      exact ⟨q, List.mem_cons_of_mem _ hq, hqv⟩

/-- `storeCourse` updates the course dict at the course's code. -/
theorem storeCourse_all (st : ParseState) (c : Course) :
    (storeCourse st c).all_courses = setAssoc st.all_courses c.code c := by
  unfold storeCourse
  split_ifs <;> rfl

/-- `removeFromCategory` does not touch the course dict. -/
theorem removeFromCategory_all (st : ParseState) (s : CourseStatus) (code : String) :
    (removeFromCategory st s code).all_courses = st.all_courses := by
  unfold removeFromCategory
  split_ifs <;> rfl

/-- The absorbing laws of `maxStatus` needed for the step lemma. -/
theorem maxStatus_completed_left (t : CourseStatus) :
    maxStatus CourseStatus.completed t = CourseStatus.completed := by
  cases t <;> rfl

/-- COMPLETED absorbs on the right of `maxStatus`. -/
theorem maxStatus_completed_right (t : CourseStatus) :
    maxStatus t CourseStatus.completed = CourseStatus.completed := by
  cases t <;> rfl

/-- One parse step updates the recorded status of the attempted code to the
precedence-maximum of the old and new statuses, and leaves others alone. -/
theorem parse_step_lookup (g : String → List String × List String × List String)
    (st : ParseState) (rc : RawCourse) (x : String)
    (hst : ∀ p ∈ st.all_courses, p.2.status ≠ CourseStatus.notTaken) :
    (lookupAssoc (parse_step g st rc).all_courses x).map Course.status =
      if rc.code = x then
        some (match (lookupAssoc st.all_courses x).map Course.status with
          | none => (parse_course g rc).status
          | some t => maxStatus t (parse_course g rc).status)
      else (lookupAssoc st.all_courses x).map Course.status := by
  have hcs : (parse_course g rc).status ≠ CourseStatus.notTaken :=
    parse_course_status_ne_notTaken rc.grade rc.status_str
  have hcode : (parse_course g rc).code = rc.code := rfl
  simp only [parse_step]
  rcases h : lookupAssoc st.all_courses (parse_course g rc).code with _ | existing
  · rw [storeCourse_all]
    by_cases hx : rc.code = x
    · subst hx
      rw [hcode, lookupAssoc_setAssoc_self,
        show lookupAssoc st.all_courses rc.code = none from h]
      simp
    · rw [lookupAssoc_setAssoc_ne _ _ _ _ (fun he => hx (hcode ▸ he.symm)), if_neg hx]
  · dsimp only
    have hex : existing.status ≠ CourseStatus.notTaken := by
      rcases lookupAssoc_mem h with ⟨p, hp, hpv⟩
      exact hpv ▸ hst p hp
    by_cases h1 : existing.status = CourseStatus.completed
    · rw [if_pos h1]
      by_cases hx : rc.code = x
      · subst hx
        rw [show lookupAssoc st.all_courses rc.code = some existing from h]
        simp [h1, maxStatus_completed_left]
      · rw [if_neg hx]
    · rw [if_neg h1]
      by_cases h2 : (parse_course g rc).status = CourseStatus.completed
      · rw [if_pos h2, storeCourse_all, removeFromCategory_all]
        by_cases hx : rc.code = x
        · subst hx
          rw [hcode, lookupAssoc_setAssoc_self,
            show lookupAssoc st.all_courses rc.code = some existing from h]
          simp [h2, maxStatus_completed_right]
        · rw [lookupAssoc_setAssoc_ne _ _ _ _ (fun he => hx (hcode ▸ he.symm)), if_neg hx]
      · rw [if_neg h2]
        by_cases h3 : existing.status = CourseStatus.inProgress ∧
            (parse_course g rc).status = CourseStatus.failed
        · rw [if_pos h3]
          by_cases hx : rc.code = x
          · subst hx
            rw [show lookupAssoc st.all_courses rc.code = some existing from h]
            simp [h3.1, h3.2, maxStatus, statusRank]
          · rw [if_neg hx]
        · rw [if_neg h3, storeCourse_all]
          by_cases hx : rc.code = x
          · subst hx
            rw [hcode, lookupAssoc_setAssoc_self,
              show lookupAssoc st.all_courses rc.code = some existing from h]
            rcases he : existing.status <;> rcases hc2 : (parse_course g rc).status <;>
              simp_all [maxStatus, statusRank]
          · rw [lookupAssoc_setAssoc_ne _ _ _ _ (fun he => hx (hcode ▸ he.symm)), if_neg hx]

/-- `storeCourse` keeps the dict free of NOT_TAKEN statuses. -/
theorem storeCourse_no_notTaken {st : ParseState} {c : Course}
    (hst : ∀ p ∈ st.all_courses, p.2.status ≠ CourseStatus.notTaken)
    (hc : c.status ≠ CourseStatus.notTaken) :
    ∀ p ∈ (storeCourse st c).all_courses, p.2.status ≠ CourseStatus.notTaken := by
  intro p hp
  rw [storeCourse_all] at hp
  rcases mem_setAssoc hp with h | h
  · exact hst p h
  · rw [h]
    exact hc

/-- A parse step keeps the dict free of NOT_TAKEN statuses. -/
theorem parse_step_no_notTaken (g : String → List String × List String × List String)
    (st : ParseState) (rc : RawCourse)
    (hst : ∀ p ∈ st.all_courses, p.2.status ≠ CourseStatus.notTaken) :
    ∀ p ∈ (parse_step g st rc).all_courses, p.2.status ≠ CourseStatus.notTaken := by
  have hcs : (parse_course g rc).status ≠ CourseStatus.notTaken :=
    parse_course_status_ne_notTaken rc.grade rc.status_str
  intro p hp
  simp only [parse_step] at hp
  rcases h : lookupAssoc st.all_courses (parse_course g rc).code with _ | existing <;>
      rw [h] at hp <;> dsimp only at hp
  · exact storeCourse_no_notTaken hst hcs p hp
  · split_ifs at hp with h1 h2 h3
    · exact hst p hp
    · refine storeCourse_no_notTaken ?_ hcs p hp
      intro q hq
      rw [removeFromCategory_all] at hq
      exact hst q hq
    · exact hst p hp
    · exact storeCourse_no_notTaken hst hcs p hp

/-- Folding the parse loop: the recorded status of code `x` is the
precedence-fold of the statuses of all its attempts. -/
theorem parse_fold_lookup (g : String → List String × List String × List String)
    (raws : List RawCourse) (st : ParseState) (x : String)
    (hst : ∀ p ∈ st.all_courses, p.2.status ≠ CourseStatus.notTaken) :
    (lookupAssoc (raws.foldl (parse_step g) st).all_courses x).map Course.status =
      statusMaxFoldFrom ((lookupAssoc st.all_courses x).map Course.status)
        ((raws.filter fun rc => rc.code == x).map fun rc => (parse_course g rc).status) := by
  induction raws generalizing st with
  | nil => rfl
  | cons rc rest ih =>
    rw [List.foldl_cons, ih _ (parse_step_no_notTaken g st rc hst),
      parse_step_lookup g st rc x hst]
    by_cases hx : rc.code = x
    · have hfx : (rc.code == x) = true := by simpa using hx
      rw [List.filter_cons, if_pos hfx, List.map_cons, if_pos hx]
      rfl
    · rw [List.filter_cons, if_neg hx,
        if_neg (show ¬((rc.code == x) = true) from fun hh => hx (by simpa using hh))]

/-- C4 — multiple attempts of one course code resolve by the strict
precedence COMPLETED > IN_PROGRESS > FAILED.  Part 1: for any attempt order
the final recorded status of a code is the precedence-fold of its attempts'
statuses (so a pass followed by a later failure stays COMPLETED).  Part 2: a
passing attempt directly after a non-passing attempt replaces it, removing
the course from the other category lists. -/
theorem C4_duplicate_resolution :
    (∀ (g : String → List String × List String × List String)
        (raws : List RawCourse) (x : String),
      (lookupAssoc (transcript_parse g raws).all_courses x).map Course.status =
        statusMaxFold
          ((raws.filter fun rc => rc.code == x).map fun rc => (parse_course g rc).status)) ∧
    (∀ (g : String → List String × List String × List String) (a b : RawCourse),
      a.code = b.code →
      (parse_course g a).status ≠ CourseStatus.completed →
      (parse_course g b).status = CourseStatus.completed →
      (transcript_parse g [a, b]).completed = [parse_course g b] ∧
      (transcript_parse g [a, b]).in_progress = [] ∧
      (transcript_parse g [a, b]).failed = [] ∧
      lookupAssoc (transcript_parse g [a, b]).all_courses a.code = some (parse_course g b)) := by
  constructor
  · intro g raws x
    exact parse_fold_lookup g raws {} x (by intro p hp; exact absurd hp (by simp))
  · intro g a b hab hne hcb
    have hca : (parse_course g a).status ≠ CourseStatus.notTaken :=
      parse_course_status_ne_notTaken a.grade a.status_str
    have hcodea : (parse_course g a).code = a.code := rfl
    have hcodeb : (parse_course g b).code = b.code := rfl
    rcases hs : (parse_course g a).status with _ | _ | _ | _
    · exact absurd hs hne
    · refine ⟨?_, ?_, ?_, ?_⟩ <;>
        simp [transcript_parse, parse_step, storeCourse, removeFromCategory, setAssoc,
          hasKeyAssoc, lookupAssoc, hcodea, hcodeb, hab, hs, hcb]
    · refine ⟨?_, ?_, ?_, ?_⟩ <;>
        simp [transcript_parse, parse_step, storeCourse, removeFromCategory, setAssoc,
          hasKeyAssoc, lookupAssoc, hcodea, hcodeb, hab, hs, hcb]
    · exact absurd hs hca

/-- A GE-attribute lookup that attaches no tags (irrelevant to duplicate
resolution). -/
def noGeAttrs : String → List String × List String × List String :=
  fun _ => ([], [], [])

/-- C4 counterexample — attempts F, then in-progress, then B for the same
code: the final recorded status is COMPLETED (precedence respected), but the
course is NOT removed from the `failed` category list, because the pass only
cleans the category of the attempt recorded immediately before it.  This
refutes "a passing attempt after earlier non-passing attempts replaces them
(removing the course from the earlier category list)". -/
theorem C4_counterexample :
    (lookupAssoc (transcript_parse noGeAttrs
        [{ code := "MATH 7", grade := some "F" },
         { code := "MATH 7", grade := none },
         { code := "MATH 7", grade := some "B" }]).all_courses "MATH 7").map Course.status =
      some CourseStatus.completed ∧
    "MATH 7" ∈ ((transcript_parse noGeAttrs
        [{ code := "MATH 7", grade := some "F" },
         { code := "MATH 7", grade := none },
         { code := "MATH 7", grade := some "B" }]).failed.map Course.code) := by
  constructor
  · decide
  · decide

/-- Witness for C4: grade F then grade B on the same code yields a final
COMPLETED status with the course removed from the failed list. -/
theorem C4_duplicate_resolution_witness :
    (transcript_parse noGeAttrs
        [{ code := "MATH 7", grade := some "F" }, { code := "MATH 7", grade := some "B" }]).completed
      = [parse_course noGeAttrs { code := "MATH 7", grade := some "B" }] ∧
    (transcript_parse noGeAttrs
        [{ code := "MATH 7", grade := some "F" }, { code := "MATH 7", grade := some "B" }]).in_progress
      = [] ∧
    (transcript_parse noGeAttrs
        [{ code := "MATH 7", grade := some "F" }, { code := "MATH 7", grade := some "B" }]).failed
      = [] ∧
    lookupAssoc (transcript_parse noGeAttrs
        [{ code := "MATH 7", grade := some "F" }, { code := "MATH 7", grade := some "B" }]).all_courses
        "MATH 7"
      = some (parse_course noGeAttrs { code := "MATH 7", grade := some "B" }) :=
  C4_duplicate_resolution.2 noGeAttrs
    { code := "MATH 7", grade := some "F" } { code := "MATH 7", grade := some "B" }
    rfl (by decide) (by decide)

/-! ## Major audit engine (`engines/major_audit.py`) -/

/-- A university course reference inside a requirement item. -/
structure UniCourse where
  code : String := ""
  title : String := ""
deriving DecidableEq, Repr

/-- One member of an SMC option group (`{code, title}`). -/
structure OptionCourse where
  code : String := ""
  title : String := ""
deriving DecidableEq, Repr

/-- One requirement item of the articulation schema. -/
structure ReqItem where
  type : String := "COURSE"
  university_course : UniCourse := {}
  smc_options : List (List OptionCourse) := []
  articulation_type : String := ""
deriving DecidableEq, Repr

/-- The `rule` block of a requirement group. -/
structure ReqRule where
  logic : String := "ALL_OF"
  min_count : Option Nat := none
  max_count : Option Nat := none
deriving DecidableEq, Repr

/-- One requirement group of the articulation schema. -/
structure Requirement where
  id : String := "unknown"
  rule : ReqRule := {}
  items : List ReqItem := []
deriving DecidableEq, Repr

/-- Classification of one requirement item against the student's sets. -/
inductive ItemStatus where
  | satisfied
  | pending
  | missing
deriving DecidableEq, Repr

/-- `[c.get("code", "") for c in option_group]`. -/
def group_codes (og : List OptionCourse) : List String :=
  og.map (·.code)

/-- "ALL courses in this option are completed". -/
def optionGroupCompleted (completed_codes : List String) (og : List OptionCourse) : Bool :=
  (group_codes og).all (completed_codes.contains ·)

/-- "ALL are at least in progress or completed" with at least one pending. -/
def optionGroupPendingOk (completed_codes pending_codes : List String)
    (og : List OptionCourse) : Bool :=
  (group_codes og).all (fun code => completed_codes.contains code || pending_codes.contains code)
    && (group_codes og).any (pending_codes.contains ·)

/-- The option-group scan of `_audit_requirement`'s item loop.  The source
iterates the groups, breaking at the first fully-completed group and marking
`found_pending` on any group fully inside completed∪pending with a pending
member; since the break only matters for which group is reported, the
resulting classification is: satisfied iff some group is fully completed,
else pending iff some group qualifies as pending, else missing. -/
def audit_item_status (item : ReqItem) (completed_codes pending_codes : List String) : ItemStatus :=
  if item.smc_options.any (optionGroupCompleted completed_codes) then ItemStatus.satisfied
  else if item.smc_options.any (optionGroupPendingOk completed_codes pending_codes) then
    ItemStatus.pending
  else ItemStatus.missing

/-- `RequirementAuditResult` from `models/audit.py`; the categorized-items
dict is carried as three lists (the diagnostic `satisfied_by` / `pending`
course-code echoes are projections of these lists). -/
structure RequirementAuditResult where
  requirement_id : String
  logic : String
  min_required : Option Nat
  satisfied_items : List ReqItem
  pending_items : List ReqItem
  missing_items : List ReqItem
  is_satisfied : Bool
  is_pending : Bool
deriving DecidableEq, Repr

/-- The satisfaction/pending flag computation of `_audit_requirement`, as a
function of the logic kind, the `min_count` field, the three item-category
counts and the raw item count. -/
def reqFlagsAudit (logic : String) (min_count : Option Nat) (S P M itemsLen : Nat) :
    Bool × Bool :=
  if logic = "ALL_OF" then
    (decide (M = 0) && decide (P = 0), decide (M = 0) && decide (0 < P))
  else if logic = "ONE_OF" then
    let s := decide (1 ≤ S)
    (s, !s && decide (1 ≤ P))
  else if logic = "N_OF" ∨ logic = "CHOOSE_N" ∨ logic = "AT_LEAST_N" then
    let required := min_count.getD 1
    if itemsLen = 0 ∧ 0 < required then (false, false)
    else
      let s := decide (required ≤ S)
      (s, !s && decide (required ≤ S + P))
  else
    (decide (M = 0) && decide (P = 0), decide (M = 0) && decide (0 < P))

/-- `MajorAuditEngine._audit_requirement`. -/
def audit_requirement (req : Requirement) (completed_codes pending_codes : List String) :
    RequirementAuditResult :=
  let courseItems := req.items.filter fun item => item.type == "COURSE"
  let satisfied_items := courseItems.filter fun item =>
    audit_item_status item completed_codes pending_codes == ItemStatus.satisfied
  let pending_items := courseItems.filter fun item =>
    audit_item_status item completed_codes pending_codes == ItemStatus.pending
  let missing_items := courseItems.filter fun item =>
    audit_item_status item completed_codes pending_codes == ItemStatus.missing
  let pair := reqFlagsAudit req.rule.logic req.rule.min_count
    satisfied_items.length pending_items.length missing_items.length req.items.length
  { requirement_id := req.id, logic := req.rule.logic, min_required := req.rule.min_count,
    satisfied_items := satisfied_items, pending_items := pending_items,
    missing_items := missing_items, is_satisfied := pair.1, is_pending := pair.2 }

/-- One major of a university's articulation file. -/
structure MajorData where
  major : String := "Unknown"
  requirements : List Requirement := []
deriving DecidableEq, Repr

/-- The audit summary returned by `MajorAuditEngine.audit` for a found
major. -/
structure MajorAuditOutput where
  major : String
  requirements : List RequirementAuditResult
  overall_satisfied : Bool
  completion_percentage : ℚ
  satisfied_count : Nat
  pending_count : Nat
  total_count : Nat
deriving DecidableEq, Repr

/-- `MajorAuditEngine.audit` applied to a found major's data. -/
def major_audit (major_data : MajorData) (completed in_progress : List Course) : MajorAuditOutput :=
  let completed_codes := completed.map (·.code)
  let pending_codes := in_progress.map (·.code)
  let requirement_results := major_data.requirements.map fun req =>
    audit_requirement req completed_codes pending_codes
  let total_reqs := requirement_results.length
  let satisfied_reqs := (requirement_results.filter (·.is_satisfied)).length
  let pending_reqs := (requirement_results.filter fun r => r.is_pending && !r.is_satisfied).length
  let overall_satisfied := requirement_results.all (·.is_satisfied)
  let completion_pct : ℚ :=
    if 0 < total_reqs then (satisfied_reqs : ℚ) / (total_reqs : ℚ) * 100 else 0
  { major := major_data.major, requirements := requirement_results,
    overall_satisfied := overall_satisfied, completion_percentage := completion_pct,
    satisfied_count := satisfied_reqs, pending_count := pending_reqs, total_count := total_reqs }

/-! ### Theorems for C3, C5, C9 -/

/-- An option group is "completed" iff all its codes are in the completed
set. -/
theorem optionGroupCompleted_iff (c : List String) (og : List OptionCourse) :
    optionGroupCompleted c og = true ↔ ∀ code ∈ group_codes og, code ∈ c := by
  unfold optionGroupCompleted
  rw [List.all_eq_true]
  simp

/-- An option group is "pending-eligible" iff all its codes are completed or
pending and at least one is pending. -/
theorem optionGroupPendingOk_iff (c p : List String) (og : List OptionCourse) :
    optionGroupPendingOk c p og = true ↔
      (∀ code ∈ group_codes og, code ∈ c ∨ code ∈ p) ∧
      ∃ code ∈ group_codes og, code ∈ p := by
  unfold optionGroupPendingOk
  rw [Bool.and_eq_true, List.all_eq_true, List.any_eq_true]
  simp

/-- Characterization of the satisfied classification of one item. -/
theorem audit_item_status_satisfied_iff (item : ReqItem) (c p : List String) :
    audit_item_status item c p = ItemStatus.satisfied ↔
      ∃ og ∈ item.smc_options, ∀ code ∈ group_codes og, code ∈ c := by
  unfold audit_item_status
  by_cases h1 : item.smc_options.any (optionGroupCompleted c)
  · rw [if_pos h1]
    refine iff_of_true rfl ?_
    rcases List.any_eq_true.mp h1 with ⟨og, hog, hcv⟩
    exact ⟨og, hog, (optionGroupCompleted_iff c og).mp hcv⟩
  · rw [if_neg h1]
    constructor
    · intro hcontr
      by_cases h2 : item.smc_options.any (optionGroupPendingOk c p)
      · rw [if_pos h2] at hcontr
        exact ItemStatus.noConfusion hcontr
      · rw [if_neg h2] at hcontr
        exact ItemStatus.noConfusion hcontr
    · rintro ⟨og, hog, hall⟩
      exact absurd
        (List.any_eq_true.mpr ⟨og, hog, (optionGroupCompleted_iff c og).mpr hall⟩) h1

/-- Characterization of the pending classification of one item. -/
theorem audit_item_status_pending_iff (item : ReqItem) (c p : List String) :
    audit_item_status item c p = ItemStatus.pending ↔
      (¬ ∃ og ∈ item.smc_options, ∀ code ∈ group_codes og, code ∈ c) ∧
      ∃ og ∈ item.smc_options,
        (∀ code ∈ group_codes og, code ∈ c ∨ code ∈ p) ∧
        ∃ code ∈ group_codes og, code ∈ p := by
  unfold audit_item_status
  by_cases h1 : item.smc_options.any (optionGroupCompleted c)
  · rw [if_pos h1]
    refine iff_of_false (fun hcontr => ItemStatus.noConfusion hcontr) ?_
    rintro ⟨hno, -⟩
    rcases List.any_eq_true.mp h1 with ⟨og, hog, hcv⟩
    exact hno ⟨og, hog, (optionGroupCompleted_iff c og).mp hcv⟩
  · rw [if_neg h1]
    by_cases h2 : item.smc_options.any (optionGroupPendingOk c p)
    · rw [if_pos h2]
      refine iff_of_true rfl ?_
      constructor
      · rintro ⟨og, hog, hall⟩
        exact absurd
          (List.any_eq_true.mpr ⟨og, hog, (optionGroupCompleted_iff c og).mpr hall⟩) h1
      · rcases List.any_eq_true.mp h2 with ⟨og, hog, hpv⟩
        exact ⟨og, hog, (optionGroupPendingOk_iff c p og).mp hpv⟩
    · rw [if_neg h2]
      refine iff_of_false (fun hcontr => ItemStatus.noConfusion hcontr) ?_
      rintro ⟨-, og, hog, hall, hsome⟩
      exact absurd
        (List.any_eq_true.mpr ⟨og, hog, (optionGroupPendingOk_iff c p og).mpr ⟨hall, hsome⟩⟩) h2

/-- C5 — an item is satisfied iff some option group is fully completed, and
pending iff it is not satisfied and some option group is fully inside
completed∪pending with at least one pending member; an ALL_OF requirement
containing a partially-covered (missing) COURSE item is neither satisfied
nor pending. -/
theorem C5_option_group_logic :
    (∀ (item : ReqItem) (c p : List String), item.type = "COURSE" →
      (audit_item_status item c p = ItemStatus.satisfied ↔
        ∃ og ∈ item.smc_options, ∀ code ∈ group_codes og, code ∈ c) ∧
      (audit_item_status item c p = ItemStatus.pending ↔
        (¬ ∃ og ∈ item.smc_options, ∀ code ∈ group_codes og, code ∈ c) ∧
        ∃ og ∈ item.smc_options,
          (∀ code ∈ group_codes og, code ∈ c ∨ code ∈ p) ∧
          ∃ code ∈ group_codes og, code ∈ p)) ∧
    (∀ (req : Requirement) (c p : List String), req.rule.logic = "ALL_OF" →
      (∃ item ∈ req.items, item.type = "COURSE" ∧
        audit_item_status item c p = ItemStatus.missing) →
      (audit_requirement req c p).is_satisfied = false ∧
      (audit_requirement req c p).is_pending = false) := by
  constructor
  · intro item c p _
    exact ⟨audit_item_status_satisfied_iff item c p, audit_item_status_pending_iff item c p⟩
  · rintro req c p hlogic ⟨item, hitem, htype, hmiss⟩
    have hmem : item ∈ req.items.filter fun i => i.type == "COURSE" :=
      List.mem_filter.mpr ⟨hitem, by simp [htype]⟩
    have hmem2 : item ∈ (req.items.filter fun i => i.type == "COURSE").filter
        fun i => audit_item_status i c p == ItemStatus.missing :=
      List.mem_filter.mpr ⟨hmem, by simp [hmiss]⟩
    have hlen : ((req.items.filter fun i => i.type == "COURSE").filter
        fun i => audit_item_status i c p == ItemStatus.missing).length ≠ 0 := by
      intro h0
      rw [List.length_eq_zero] at h0
      rw [h0] at hmem2
      exact absurd hmem2 (List.not_mem_nil item)
    have hd : decide (((req.items.filter fun i => i.type == "COURSE").filter
        fun i => audit_item_status i c p == ItemStatus.missing).length = 0) = false :=
      decide_eq_false hlen
    simp only [audit_requirement, reqFlagsAudit, if_pos hlogic, hd, Bool.false_and]
    exact ⟨trivial, trivial⟩

/-- Witness for C5: one item whose single option group {CS 1, CS 2} has only
CS 1 completed is missing, so an ALL_OF requirement containing it is neither
satisfied nor pending. -/
theorem C5_option_group_logic_witness :
    (audit_requirement
        { rule := { logic := "ALL_OF" },
          items := [{ smc_options := [[{ code := "CS 1" }, { code := "CS 2" }]] }] }
        ["CS 1"] []).is_satisfied = false ∧
    (audit_requirement
        { rule := { logic := "ALL_OF" },
          items := [{ smc_options := [[{ code := "CS 1" }, { code := "CS 2" }]] }] }
        ["CS 1"] []).is_pending = false :=
  C5_option_group_logic.2
    { rule := { logic := "ALL_OF" },
      items := [{ smc_options := [[{ code := "CS 1" }, { code := "CS 2" }]] }] }
    ["CS 1"] [] rfl
    ⟨{ smc_options := [[{ code := "CS 1" }, { code := "CS 2" }]] }, by decide, rfl, by decide⟩

/-- C3 — a counted-logic requirement with an empty items list and a positive
required count is never satisfied and never pending, while an ALL_OF
requirement with an empty items list is vacuously satisfied. -/
theorem C3_empty_items (req : Requirement) (c p : List String)
    (hempty : req.items = []) :
    ((req.rule.logic = "N_OF" ∨ req.rule.logic = "CHOOSE_N" ∨ req.rule.logic = "AT_LEAST_N") →
      0 < req.rule.min_count.getD 1 →
      (audit_requirement req c p).is_satisfied = false ∧
      (audit_requirement req c p).is_pending = false) ∧
    (req.rule.logic = "ALL_OF" →
      (audit_requirement req c p).is_satisfied = true) := by
  constructor
  · intro hl hm
    have h1 : ¬ (req.rule.logic = "ALL_OF") := by
      rcases hl with h | h | h <;> simp [h]
    have h2 : ¬ (req.rule.logic = "ONE_OF") := by
      rcases hl with h | h | h <;> simp [h]
    simp [audit_requirement, reqFlagsAudit, hempty, h1, h2, hl, hm]
  · intro hl
    simp [audit_requirement, reqFlagsAudit, hempty, hl]

/-- Witness for C3: an N_OF requirement expecting 2 items but listing none is
not satisfied; an ALL_OF requirement listing none is satisfied. -/
theorem C3_empty_items_witness :
    ((audit_requirement { rule := { logic := "N_OF", min_count := some 2 } } [] []).is_satisfied
        = false ∧
      (audit_requirement { rule := { logic := "N_OF", min_count := some 2 } } [] []).is_pending
        = false) ∧
    (audit_requirement { rule := { logic := "ALL_OF" } } [] []).is_satisfied = true :=
  ⟨(C3_empty_items { rule := { logic := "N_OF", min_count := some 2 } } [] [] rfl).1
      (Or.inl rfl) (by decide),
    (C3_empty_items { rule := { logic := "ALL_OF" } } [] [] rfl).2 rfl⟩

/-- C9 — auditing a major whose requirements list is empty yields
overall_satisfied true (conjunction over zero groups) and completion
percentage 0 (the division is guarded by the zero test). -/
theorem C9_empty_requirements (md : MajorData) (completed in_progress : List Course)
    (h : md.requirements = []) :
    (major_audit md completed in_progress).overall_satisfied = true ∧
    (major_audit md completed in_progress).completion_percentage = 0 := by
  simp [major_audit, h]

/-- Witness for C9: the audit of a concrete empty-requirements major. -/
theorem C9_empty_requirements_witness :
    (major_audit { major := "Undeclared" } [] []).overall_satisfied = true ∧
    (major_audit { major := "Undeclared" } [] []).completion_percentage = 0 :=
  C9_empty_requirements { major := "Undeclared" } [] [] rfl

/-! ## Major discovery engine (`engines/major_discovery.py`) -/

/-- The item scan of `MajorDiscoveryEngine._check_requirement`; its loop is
the same option-group scan as the audit engine's (break at the first fully
completed group, pending flag on any fully-enrolled group). -/
def check_item_status (item : ReqItem) (completed_codes pending_codes : List String) : ItemStatus :=
  if item.smc_options.any (optionGroupCompleted completed_codes) then ItemStatus.satisfied
  else if item.smc_options.any (optionGroupPendingOk completed_codes pending_codes) then
    ItemStatus.pending
  else ItemStatus.missing

/-- "Track first missing course for display": the first missing COURSE
item's first option course, or the university course code. -/
def check_first_missing (completed_codes pending_codes : List String) :
    List ReqItem → Option String
  | [] => none
  | item :: rest =>
    if item.type ≠ "COURSE" then check_first_missing completed_codes pending_codes rest
    else if check_item_status item completed_codes pending_codes = ItemStatus.missing then
      some (if item.smc_options ≠ [] then ((item.smc_options.headD []).headD {}).code
            else item.university_course.code)
    else check_first_missing completed_codes pending_codes rest

/-- The result dict of `MajorDiscoveryEngine._check_requirement`. -/
structure CheckResult where
  satisfied : Bool
  in_progress : Bool
  missing_course : Option String
deriving DecidableEq, Repr

/-- The flag computation of `MajorDiscoveryEngine._check_requirement`.  Note
`min_count` resolves by Python truthiness (`rule.get("min_count") or 1`):
both a missing key and an explicit 0 fall back to 1, and ALL_OF compares the
satisfied count against the raw item count. -/
def reqFlagsCheck (logic : String) (min_count : Option Nat) (S P itemsLen : Nat) :
    Bool × Bool :=
  let mc := match min_count with
    | none => 1
    | some 0 => 1
    | some n => n
  if logic = "ALL_OF" then
    (decide (S = itemsLen), decide (S + P = itemsLen) && decide (0 < P))
  else if logic = "ONE_OF" then
    let s := decide (1 ≤ S)
    (s, !s && decide (1 ≤ P))
  else if logic = "CHOOSE_N" ∨ logic = "N_OF" ∨ logic = "AT_LEAST_N" then
    let s := decide (mc ≤ S)
    (s, !s && decide (mc ≤ S + P))
  else
    (decide (S = itemsLen), decide (S + P = itemsLen) && decide (0 < P))

/-- `MajorDiscoveryEngine._check_requirement` proper. -/
def check_requirement (items : List ReqItem) (logic : String) (rule : ReqRule)
    (completed_codes pending_codes : List String) : CheckResult :=
  let courseItems := items.filter fun item => item.type == "COURSE"
  let satisfied_items := (courseItems.filter fun item =>
    check_item_status item completed_codes pending_codes == ItemStatus.satisfied).length
  let pending_items := (courseItems.filter fun item =>
    check_item_status item completed_codes pending_codes == ItemStatus.pending).length
  let pair := reqFlagsCheck logic rule.min_count satisfied_items pending_items items.length
  { satisfied := pair.1,
    in_progress := pair.2 && !pair.1,
    missing_course :=
      if !pair.1 && !pair.2 then check_first_missing completed_codes pending_codes items
      else none }

/-- `MajorMatch` dataclass. -/
structure MajorMatch where
  university : String
  major : String
  total_requirements : Nat
  satisfied_count : Nat
  in_progress_count : Nat
  missing_count : Nat
  score : ℚ
  weighted_score : ℚ
  missing_courses : List String
deriving DecidableEq, Repr

/-- `IN_PROGRESS_WEIGHT = 1.0`. -/
def IN_PROGRESS_WEIGHT : ℚ := 1

/-- `SUBSTANTIAL_THRESHOLD = 3`. -/
def SUBSTANTIAL_THRESHOLD : Nat := 3

/-- The counting loop body of `_score_major`: accumulate (satisfied,
in_progress, missing, missing_courses), skipping empty requirement groups.
A falsy (empty) missing-course string is not appended. -/
def score_step (completed_codes pending_codes : List String)
    (acc : Nat × Nat × Nat × List String) (req : Requirement) : Nat × Nat × Nat × List String :=
  if req.items = [] then acc
  else
    let r := check_requirement req.items req.rule.logic req.rule completed_codes pending_codes
    if r.satisfied then (acc.1 + 1, acc.2.1, acc.2.2.1, acc.2.2.2)
    else if r.in_progress then (acc.1, acc.2.1 + 1, acc.2.2.1, acc.2.2.2)
    else
      (acc.1, acc.2.1, acc.2.2.1 + 1,
        match r.missing_course with
        | some mc => if mc = "" then acc.2.2.2 else acc.2.2.2 ++ [mc]
        | none => acc.2.2.2)

/-- `MajorDiscoveryEngine._score_major`. -/
def score_major (uni_name : String) (major_data : MajorData)
    (completed_codes pending_codes : List String) : Option MajorMatch :=
  if major_data.requirements = [] then none
  else
    let res := major_data.requirements.foldl (score_step completed_codes pending_codes)
      (0, 0, 0, [])
    let satisfied := res.1
    let in_progress := res.2.1
    let missing := res.2.2.1
    let total := satisfied + in_progress + missing
    if total = 0 then none
    else
      some { university := uni_name, major := major_data.major,
             total_requirements := total, satisfied_count := satisfied,
             in_progress_count := in_progress, missing_count := missing,
             score := ((satisfied : ℚ) + IN_PROGRESS_WEIGHT * (in_progress : ℚ)) / (total : ℚ),
             weighted_score := (satisfied : ℚ) + IN_PROGRESS_WEIGHT * (in_progress : ℚ),
             missing_courses := res.2.2.2.take 3 }

/-- Stable insertion step of a comparison-based sort. -/
def insertSorted {α : Type} (le : α → α → Bool) (a : α) : List α → List α
  | [] => [a]
  | b :: bs => if le a b then a :: b :: bs else b :: insertSorted le a bs

/-- `list.sort` modelled as insertion sort with a boolean "comes no later
than" relation. -/
def sortByLe {α : Type} (le : α → α → Bool) (l : List α) : List α :=
  l.foldr (insertSorted le) []

/-- `sort(key=lambda m: (m.score, m.weighted_score), reverse=True)`:
descending lexicographic comparison. -/
def matchRankLe (a b : MajorMatch) : Bool :=
  decide (b.score < a.score) ||
    (decide (a.score = b.score) && decide (b.weighted_score ≤ a.weighted_score))

/-- The two ranked buckets returned by `MajorDiscoveryEngine.discover`. -/
structure DiscoverOutput where
  substantial : List MajorMatch
  small : List MajorMatch
deriving DecidableEq, Repr

/-- `MajorDiscoveryEngine.discover`, over pre-loaded articulation data
(university name paired with its majors); `top_n` and `min_satisfied`
default to 10 and 1 at the call sites. -/
def discover (universities : List (String × List MajorData))
    (completed_codes pending_codes : List String) (top_n min_satisfied : Nat) : DiscoverOutput :=
  let all_matches := (universities.map fun u =>
    (u.2.filterMap fun md => score_major u.1 md completed_codes pending_codes).filter
      fun m => decide (min_satisfied ≤ m.satisfied_count)).flatten
  let substantial := all_matches.filter fun m => decide (SUBSTANTIAL_THRESHOLD ≤ m.total_requirements)
  let small := all_matches.filter fun m => decide (m.total_requirements < SUBSTANTIAL_THRESHOLD)
  { substantial := (sortByLe matchRankLe substantial).take top_n,
    small := (sortByLe matchRankLe small).take 20 }

/-! ### Theorems for C2 and C10 -/

/-- Two booleans agreeing as propositions are equal. -/
theorem bool_eq_of_iff {a b : Bool} (h : a = true ↔ b = true) : a = b := by
  cases a <;> cases b <;> simp_all

/-- The three item classifications partition a list of items. -/
theorem status_partition (items : List ReqItem) (c p : List String) :
    (items.filter fun i => audit_item_status i c p == ItemStatus.satisfied).length +
    (items.filter fun i => audit_item_status i c p == ItemStatus.pending).length +
    (items.filter fun i => audit_item_status i c p == ItemStatus.missing).length
      = items.length := by
  induction items with
  | nil => rfl
  | cons item rest ih =>
    rcases h : audit_item_status item c p <;>
      simp [List.filter_cons, h] <;> omega

/-- The discovery engine's item scan equals the audit engine's. -/
theorem check_item_status_eq_audit (item : ReqItem) (c p : List String) :
    check_item_status item c p = audit_item_status item c p := rfl

/-- The two engines' flag computations agree whenever the three category
counts partition the item count and `min_count` is not an explicit 0 under
counted logic. -/
theorem flags_agree (logic : String) (min_count : Option Nat) (S P M itemsLen : Nat)
    (hpart : S + P + M = itemsLen)
    (hmc : (logic = "N_OF" ∨ logic = "CHOOSE_N" ∨ logic = "AT_LEAST_N") →
      min_count ≠ some 0) :
    (reqFlagsCheck logic min_count S P itemsLen).1 =
      (reqFlagsAudit logic min_count S P M itemsLen).1 ∧
    ((reqFlagsCheck logic min_count S P itemsLen).2 &&
        !(reqFlagsCheck logic min_count S P itemsLen).1) =
      (reqFlagsAudit logic min_count S P M itemsLen).2 := by
  simp only [reqFlagsCheck, reqFlagsAudit]
  by_cases hA : logic = "ALL_OF"
  · simp only [if_pos hA]
    constructor
    · apply bool_eq_of_iff
      simp only [decide_eq_true_eq, Bool.and_eq_true]
      omega
    · apply bool_eq_of_iff
      simp only [decide_eq_true_eq, Bool.and_eq_true, Bool.not_eq_eq_eq_not, Bool.not_true,
        decide_eq_false_iff_not]
      omega
  · simp only [if_neg hA]
    by_cases hO : logic = "ONE_OF"
    · simp only [if_pos hO]
      constructor
      · trivial
      · apply bool_eq_of_iff
        simp only [Bool.and_eq_true, Bool.not_eq_eq_eq_not, Bool.not_true,
          decide_eq_false_iff_not, decide_eq_true_eq]
        omega
    · simp only [if_neg hO]
      by_cases hN : logic = "N_OF" ∨ logic = "CHOOSE_N" ∨ logic = "AT_LEAST_N"
      · have hN' : logic = "CHOOSE_N" ∨ logic = "N_OF" ∨ logic = "AT_LEAST_N" := by tauto
        simp only [if_pos hN, if_pos hN']
        rcases hmcv : min_count with _ | n
        · simp only [Option.getD_none]
          by_cases hlen : itemsLen = 0 ∧ 0 < 1
          · simp only [if_pos hlen]
            constructor
            · apply bool_eq_of_iff
              simp only [decide_eq_true_eq, Bool.false_eq_true, iff_false]
              omega
            · apply bool_eq_of_iff
              simp only [Bool.and_eq_true, Bool.not_eq_eq_eq_not, Bool.not_true,
                decide_eq_false_iff_not, decide_eq_true_eq, Bool.false_eq_true, iff_false]
              omega
          · simp only [if_neg hlen]
            constructor
            · trivial
            · apply bool_eq_of_iff
              simp only [Bool.and_eq_true, Bool.not_eq_eq_eq_not, Bool.not_true,
                decide_eq_false_iff_not, decide_eq_true_eq]
              omega
        · rcases n with _ | m
          · exact absurd hmcv (hmc hN)
          · simp only [Option.getD_some]
            by_cases hlen : itemsLen = 0 ∧ 0 < m + 1
            · simp only [if_pos hlen]
              constructor
              · apply bool_eq_of_iff
                simp only [decide_eq_true_eq, Bool.false_eq_true, iff_false]
                omega
              · apply bool_eq_of_iff
                simp only [Bool.and_eq_true, Bool.not_eq_eq_eq_not, Bool.not_true,
                  decide_eq_false_iff_not, decide_eq_true_eq, Bool.false_eq_true, iff_false]
                omega
            · simp only [if_neg hlen]
              constructor
              · trivial
              · apply bool_eq_of_iff
                simp only [Bool.and_eq_true, Bool.not_eq_eq_eq_not, Bool.not_true,
                  decide_eq_false_iff_not, decide_eq_true_eq]
                omega
      · have hN' : ¬ (logic = "CHOOSE_N" ∨ logic = "N_OF" ∨ logic = "AT_LEAST_N") := by tauto
        simp only [if_neg hN, if_neg hN']
        constructor
        · apply bool_eq_of_iff
          simp only [decide_eq_true_eq, Bool.and_eq_true]
          omega
        · apply bool_eq_of_iff
          simp only [decide_eq_true_eq, Bool.and_eq_true, Bool.not_eq_eq_eq_not, Bool.not_true,
            decide_eq_false_iff_not]
          omega

/-- C2 amended — for a requirement group all of whose items are COURSE items
and whose `min_count` is not an explicit 0 under counted logic, the Major
Discovery Engine's classification coincides with the Major Audit Engine's
(`satisfied` with `is_satisfied`, `in_progress` with `is_pending`). -/
theorem C2_engines_agree (req : Requirement) (c p : List String)
    (hitems : ∀ item ∈ req.items, item.type = "COURSE")
    (hmc : (req.rule.logic = "N_OF" ∨ req.rule.logic = "CHOOSE_N" ∨
        req.rule.logic = "AT_LEAST_N") → req.rule.min_count ≠ some 0) :
    (check_requirement req.items req.rule.logic req.rule c p).satisfied =
      (audit_requirement req c p).is_satisfied ∧
    (check_requirement req.items req.rule.logic req.rule c p).in_progress =
      (audit_requirement req c p).is_pending := by
  have hfilter : (req.items.filter fun i => i.type == "COURSE") = req.items :=
    List.filter_eq_self.mpr fun a ha => by simp [hitems a ha]
  have hpart := status_partition req.items c p
  simp only [check_requirement, audit_requirement, check_item_status_eq_audit, hfilter]
  exact flags_agree req.rule.logic req.rule.min_count _ _ _ _ hpart hmc

/-- The concrete ONE_OF requirement used to witness the engines' agreement. -/
def c2wreq : Requirement :=
  { id := "W", rule := { logic := "ONE_OF" },
    items := [{ smc_options := [[{ code := "CS 1" }]] }] }

/-- Witness for C2's amended theorem: a ONE_OF group with one completed
COURSE item, on which both engines agree. -/
theorem C2_engines_agree_witness :
    (check_requirement c2wreq.items c2wreq.rule.logic c2wreq.rule ["CS 1"] []).satisfied =
      (audit_requirement c2wreq ["CS 1"] []).is_satisfied ∧
    (check_requirement c2wreq.items c2wreq.rule.logic c2wreq.rule ["CS 1"] []).in_progress =
      (audit_requirement c2wreq ["CS 1"] []).is_pending :=
  C2_engines_agree c2wreq ["CS 1"] [] (by decide) (fun h => absurd h (by decide))

/-- An N_OF group with `min_count = 0` and its lone item not completed:
the audit engine treats the requirement as satisfied (0 ≥ 0) while the
discovery engine coerces 0 to 1 and reports it unsatisfied. -/
def c2reqA : Requirement :=
  { id := "R1", rule := { logic := "N_OF", min_count := some 0 },
    items := [{ smc_options := [[{ code := "CS 1" }]] }] }

/-- An ALL_OF group whose only item is a non-COURSE NOTE: vacuously
satisfied by the audit engine, unsatisfied for the discovery engine, which
compares against the raw item count. -/
def c2reqB : Requirement :=
  { id := "R2", rule := { logic := "ALL_OF" }, items := [{ type := "NOTE" }] }

/-- C2 counterexample — two concrete requirement groups on which the Major
Audit Engine reports is_satisfied true while the Major Discovery Engine
classifies the same group as not satisfied. -/
theorem C2_counterexample :
    ((audit_requirement c2reqA [] []).is_satisfied = true ∧
      (check_requirement c2reqA.items c2reqA.rule.logic c2reqA.rule [] []).satisfied = false) ∧
    ((audit_requirement c2reqB [] []).is_satisfied = true ∧
      (check_requirement c2reqB.items c2reqB.rule.logic c2reqB.rule [] []).satisfied = false) := by
  refine ⟨⟨?_, ?_⟩, ?_, ?_⟩ <;> decide

/-! ### Theorems for C10 -/

/-- Membership through one insertion step of the sort. -/
theorem mem_insertSorted {α : Type} (le : α → α → Bool) (a x : α) (l : List α) :
    x ∈ insertSorted le a l ↔ x = a ∨ x ∈ l := by
  induction l with
  | nil => simp [insertSorted]
  | cons b bs ih =>
    by_cases h : le a b
    · simp [insertSorted, h]
    · simp only [insertSorted, if_neg h, List.mem_cons, ih]
      tauto

/-- Sorting preserves membership. -/
theorem mem_sortByLe {α : Type} (le : α → α → Bool) (x : α) (l : List α) :
    x ∈ sortByLe le l ↔ x ∈ l := by
  induction l with
  | nil => simp [sortByLe]
  | cons b bs ih =>
    rw [show sortByLe le (b :: bs) = insertSorted le b (sortByLe le bs) from rfl,
      mem_insertSorted]
    rw [ih]
    simp

/-- If no requirement group checks as satisfied, the satisfied counter of
the scoring fold never moves. -/
theorem score_fold_first (c p : List String) (reqs : List Requirement)
    (acc : Nat × Nat × Nat × List String)
    (hall : ∀ req ∈ reqs,
      (check_requirement req.items req.rule.logic req.rule c p).satisfied = false) :
    (reqs.foldl (score_step c p) acc).1 = acc.1 := by
  induction reqs generalizing acc with
  | nil => rfl
  | cons req rest ih =>
    rw [List.foldl_cons, ih _ fun r hr => hall r (List.mem_cons_of_mem _ hr)]
    unfold score_step
    by_cases hempty : req.items = []
    · rw [if_pos hempty]
    · rw [if_neg hempty]
      have hs := hall req (List.mem_cons_self _ _)
      simp only [hs, Bool.false_eq_true, if_false]
      by_cases hip : (check_requirement req.items req.rule.logic req.rule c p).in_progress
      · rw [if_pos hip]
      · rw [if_neg hip]

/-- C10 — every major returned by discovery (in either bucket) has at least
`min_satisfied` fully satisfied requirement groups; and a major all of whose
non-empty groups check as unsatisfied (e.g. only in progress) is scored with
`satisfied_count = 0`, hence filtered out whenever `min_satisfied ≥ 1`. -/
theorem C10_discovery_min_satisfied :
    (∀ (universities : List (String × List MajorData)) (c p : List String)
        (top_n min_satisfied : Nat) (m : MajorMatch),
      (m ∈ (discover universities c p top_n min_satisfied).substantial ∨
        m ∈ (discover universities c p top_n min_satisfied).small) →
      min_satisfied ≤ m.satisfied_count) ∧
    (∀ (uni : String) (md : MajorData) (c p : List String) (mm : MajorMatch),
      (∀ req ∈ md.requirements,
        (check_requirement req.items req.rule.logic req.rule c p).satisfied = false) →
      score_major uni md c p = some mm → mm.satisfied_count = 0) := by
  constructor
  · intro universities c p top_n min_satisfied m hm
    simp only [discover] at hm
    rcases hm with hm | hm <;>
    · replace hm := List.take_subset _ _ hm
      rw [mem_sortByLe] at hm
      replace hm := (List.mem_filter.mp hm).1
      rcases List.mem_flatten.mp hm with ⟨sub, hsub, hmem⟩
      rcases List.mem_map.mp hsub with ⟨u, _, rfl⟩
      exact of_decide_eq_true (List.mem_filter.mp hmem).2
  · intro uni md c p mm hall hscore
    unfold score_major at hscore
    by_cases h0 : md.requirements = []
    · rw [if_pos h0] at hscore
      exact absurd hscore (by simp)
    · rw [if_neg h0] at hscore
      simp only at hscore
      split_ifs at hscore with ht
      have heq := Option.some.inj hscore
      rw [← heq]
      exact score_fold_first c p md.requirements _ hall

/-- A concrete one-requirement major used to witness the discovery filter. -/
def c10req : Requirement :=
  { id := "A", rule := { logic := "ONE_OF" },
    items := [{ smc_options := [[{ code := "CS 1" }]] }] }

/-- The concrete major data for the C10 witness. -/
def c10md : MajorData := { major := "CS", requirements := [c10req] }

/-- The match that discovery produces for `c10md` with "CS 1" completed. -/
def c10match : MajorMatch :=
  { university := "CSU X", major := "CS", total_requirements := 1,
    satisfied_count := 1, in_progress_count := 0, missing_count := 0,
    score := (((1 : ℕ) : ℚ) + IN_PROGRESS_WEIGHT * ((0 : ℕ) : ℚ)) / ((1 : ℕ) : ℚ),
    weighted_score := ((1 : ℕ) : ℚ) + IN_PROGRESS_WEIGHT * ((0 : ℕ) : ℚ),
    missing_courses := [] }

/-- Witness for C10: a one-requirement major satisfied by the student's one
completed course lands in the small bucket and meets the threshold. -/
theorem C10_discovery_min_satisfied_witness :
    c10match ∈ (discover [("CSU X", [c10md])] ["CS 1"] [] 10 1).small ∧
    1 ≤ c10match.satisfied_count := by
  have hmem : c10match ∈ (discover [("CSU X", [c10md])] ["CS 1"] [] 10 1).small := by
    rw [show (discover [("CSU X", [c10md])] ["CS 1"] [] 10 1).small = [c10match] from rfl]
    exact List.mem_cons_self _ _
  exact ⟨hmem,
    C10_discovery_min_satisfied.1 [("CSU X", [c10md])] ["CS 1"] [] 10 1 c10match (Or.inr hmem)⟩

/-! ## Multi-target engine (`engines/multi_target.py`) -/

/-- `MultiTargetCourse`: one course's aggregate value across all targets.
The title/units/prerequisite enrichment attached from the catalog does not
influence classification and is carried with default values. -/
structure MultiTargetCourse where
  code : String
  title : String := ""
  units : ℚ := 3
  ge_satisfaction : List (String × List String)
  major_satisfaction : List (String × List String)
  total_ge_areas : Nat
  total_major_reqs : Nat
  total_targets_helped : Nat
  efficiency_score : Nat
deriving DecidableEq, Repr

/-- `sum(len(v) for v in m.values())`. -/
def sumLens (m : List (String × List String)) : Nat :=
  (m.map fun kv => kv.2.length).sum

/-- The per-code tail of `_build_unified_course_list` (the loop over
`all_course_codes`): compute the totals from the two satisfaction dicts,
apply the no-op zero guard, skip zero-efficiency courses and build the
record. -/
def build_multi_target_course (code : String)
    (ge_satisfaction major_satisfaction : List (String × List String)) :
    Option MultiTargetCourse :=
  let total_ge := sumLens ge_satisfaction
  let total_major := sumLens major_satisfaction
  let targets_helped0 := major_satisfaction.length
  let targets_helped := if 0 < total_ge ∧ targets_helped0 = 0 then 0 else targets_helped0
  let efficiency := total_ge + total_major
  if efficiency = 0 then none
  else
    some { code := code, ge_satisfaction := ge_satisfaction,
           major_satisfaction := major_satisfaction,
           total_ge_areas := total_ge, total_major_reqs := total_major,
           total_targets_helped := targets_helped, efficiency_score := efficiency }

/-- The three efficiency tiers of `analyze_targets`. -/
structure MultiTargetBuckets where
  super_efficient : List MultiTargetCourse
  single_target : List MultiTargetCourse
  ge_only : List MultiTargetCourse
deriving DecidableEq, Repr

/-- STEP 3 of `MultiTargetEngine.analyze_targets`: the elif chain placing
each course in at most one tier. -/
def classify_courses (all_courses : List MultiTargetCourse) : MultiTargetBuckets :=
  { super_efficient := all_courses.filter fun course =>
      decide (2 ≤ course.total_targets_helped),
    single_target := all_courses.filter fun course =>
      !decide (2 ≤ course.total_targets_helped) && decide (course.total_targets_helped = 1),
    ge_only := all_courses.filter fun course =>
      !decide (2 ≤ course.total_targets_helped) && !decide (course.total_targets_helped = 1)
        && decide (0 < course.total_ge_areas) }

/-! ### Theorem for C7 -/

/-- C7 — a unified course whose major_satisfaction covers at least 2
distinct target IDs goes to the super-efficient tier and never to
single-target; exactly 1 target goes to single-target; GE contribution with
no major target goes to GE-only (GE alone never counts as a helped
target). -/
theorem C7_multi_target_classification (code : String)
    (gs ms : List (String × List String)) (c : MultiTargetCourse)
    (courses : List MultiTargetCourse)
    (hnodup : (ms.map Prod.fst).Nodup)
    (hbuild : build_multi_target_course code gs ms = some c)
    (hmem : c ∈ courses) :
    (2 ≤ (c.major_satisfaction.map Prod.fst).dedup.length →
      c ∈ (classify_courses courses).super_efficient ∧
      c ∉ (classify_courses courses).single_target) ∧
    ((c.major_satisfaction.map Prod.fst).dedup.length = 1 →
      c ∈ (classify_courses courses).single_target ∧
      c ∉ (classify_courses courses).super_efficient) ∧
    (c.major_satisfaction = [] →
      0 < c.total_ge_areas ∧
      c ∈ (classify_courses courses).ge_only ∧
      c ∉ (classify_courses courses).super_efficient ∧
      c ∉ (classify_courses courses).single_target) := by
  unfold build_multi_target_course at hbuild
  simp only at hbuild
  have hth : (if 0 < sumLens gs ∧ ms.length = 0 then 0 else ms.length) = ms.length := by
    split_ifs with hcond
    · exact hcond.2.symm
    · rfl
  rw [hth] at hbuild
  split_ifs at hbuild with heff
  have heq := Option.some.inj hbuild
  subst heq
  dsimp only
  have hdedup : (ms.map Prod.fst).dedup.length = ms.length := by
    rw [hnodup.dedup, List.length_map]
  rw [hdedup]
  simp only [classify_courses]
  refine ⟨?_, ?_, ?_⟩
  · intro h2
    refine ⟨List.mem_filter.mpr ⟨hmem, ?_⟩, fun hcontr => ?_⟩
    · simp only [decide_eq_true_eq]
      exact h2
    · have hpred := (List.mem_filter.mp hcontr).2
      simp only [Bool.and_eq_true, Bool.not_eq_eq_eq_not, Bool.not_true, decide_eq_false_iff_not,
        decide_eq_true_eq] at hpred
      omega
  · intro h1
    refine ⟨List.mem_filter.mpr ⟨hmem, ?_⟩, fun hcontr => ?_⟩
    · simp only [Bool.and_eq_true, Bool.not_eq_eq_eq_not, Bool.not_true, decide_eq_false_iff_not,
        decide_eq_true_eq]
      omega
    · have hpred := (List.mem_filter.mp hcontr).2
      simp only [decide_eq_true_eq] at hpred
      omega
  · intro hms
    subst hms
    have h0 : sumLens ([] : List (String × List String)) = 0 := rfl
    have hge : 0 < sumLens gs := by omega
    refine ⟨hge, List.mem_filter.mpr ⟨hmem, ?_⟩, fun hcontr => ?_, fun hcontr => ?_⟩
    · simp only [Bool.and_eq_true, Bool.not_eq_eq_eq_not, Bool.not_true, decide_eq_false_iff_not,
        decide_eq_true_eq, List.length_nil]
      exact ⟨⟨by omega, by omega⟩, hge⟩
    · have hpred := (List.mem_filter.mp hcontr).2
      simp only [decide_eq_true_eq, List.length_nil] at hpred
      omega
    · have hpred := (List.mem_filter.mp hcontr).2
      simp only [Bool.and_eq_true, Bool.not_eq_eq_eq_not, Bool.not_true, decide_eq_false_iff_not,
        decide_eq_true_eq, List.length_nil] at hpred
      omega

/-- A concrete major-satisfaction dict covering two targets. -/
def c7ms : List (String × List String) := [("t1", ["R1"]), ("t2", ["R2"])]

/-- The unified course built for the C7 witness. -/
def c7course : MultiTargetCourse :=
  { code := "BIO 1", ge_satisfaction := [], major_satisfaction := c7ms,
    total_ge_areas := 0, total_major_reqs := 2, total_targets_helped := 2,
    efficiency_score := 2 }

/-- Witness for C7: a course helping two targets is super-efficient and not
single-target. -/
theorem C7_multi_target_classification_witness :
    c7course ∈ (classify_courses [c7course]).super_efficient ∧
    c7course ∉ (classify_courses [c7course]).single_target :=
  (C7_multi_target_classification "BIO 1" [] c7ms c7course [c7course]
    (by decide) rfl (List.mem_cons_self _ _)).1 (by decide)

/-! ## Full GE audit (`GEAuditEngine.audit`) and year overrides -/

/-- One area's entry inside a year override. -/
structure AreaOverride where
  per_target : Option (List (String × TargetReqs)) := none
  disabled : Bool := false
deriving DecidableEq, Repr

/-- One entry of a pattern's `year_overrides` list (range defaults 0-999). -/
structure YearOverride where
  year_id_min : Nat := 0
  year_id_max : Nat := 999
  areas : List (String × AreaOverride) := []
deriving DecidableEq, Repr

/-- One GE pattern (`systems.IGETC` / `systems.CalGETC`). -/
structure GEPattern where
  pattern_name : Option String := none
  areas : List (String × AreaData) := []
  year_overrides : List YearOverride := []
deriving DecidableEq, Repr

/-- Merge one override entry into the areas dict; only existing area keys
are modified (replace `per_target` when present, set `disabled` when
flagged). -/
def apply_area_override (areas : List (String × AreaData)) (ac : String)
    (ov : AreaOverride) : List (String × AreaData) :=
  areas.map fun p =>
    if p.1 == ac then
      (p.1, { p.2 with per_target := ov.per_target.getD p.2.per_target,
                       disabled := p.2.disabled || ov.disabled })
    else p

/-- `GEAuditEngine._apply_year_overrides`: only the first override whose
year range contains the year code is applied. -/
def apply_year_overrides (pattern : GEPattern) (year_code : Nat) : GEPattern :=
  match pattern.year_overrides.find? fun ov =>
      decide (ov.year_id_min ≤ year_code) && decide (year_code ≤ ov.year_id_max) with
  | none => pattern
  | some ov =>
    { pattern with
        areas := ov.areas.foldl (fun acc q => apply_area_override acc q.1 q.2) pattern.areas }

/-- Python `s.upper()`. -/
def strUpper (s : String) : String :=
  (s.data.map Char.toUpper).asString

/-- Lexicographic character-list comparison (used to model sorting by a
string key). -/
def charListLe : List Char → List Char → Bool
  | [], _ => true
  | _ :: _, [] => false
  | a :: as, b :: bs => if a < b then true else if b < a then false else charListLe as bs

/-- "comes no later than" on strings for `sort(key=...)`. -/
def strLe (a b : String) : Bool :=
  charListLe a.data b.data

/-- The parsed student state consumed by the engines. -/
structure StudentState where
  completed : List Course
  in_progress : List Course
  failed : List Course := []
deriving DecidableEq, Repr

/-- The dict returned by `GEAuditEngine.audit`. -/
structure GEAuditOutput where
  pattern_name : String
  pattern_key : String
  areas : List AreaAuditResult
  overall_satisfied : Bool
  total_units_completed : ℚ
deriving DecidableEq, Repr

/-- `GEAuditEngine.audit`, over the pre-loaded `systems` dict of
`ge_rules_master.json`. -/
def ge_audit (ge_rules_systems : List (String × GEPattern)) (student : StudentState)
    (entry_year : Nat) (entry_term : String) (target_system : String) : GEAuditOutput :=
  let pattern_key := determine_ge_pattern entry_year entry_term
  let pattern0 := (lookupAssoc ge_rules_systems pattern_key).getD {}
  let year_code := academic_year_to_code entry_year
  let pattern := apply_year_overrides pattern0 year_code
  let completed := student.completed
  let in_progress := student.in_progress
  let ge_attr_key := if pattern_key = "IGETC" then "igetc" else "cal_getc"
  let target_key := strUpper target_system
  let area_results := (pattern.areas.filter fun p => !p.2.disabled).map fun p =>
    audit_area_v2 p.1 p.2 completed in_progress ge_attr_key target_key
  let area_results := sortByLe (fun a b => strLe a.code b.code) area_results
  let overall_satisfied := area_results.all (·.is_satisfied)
  let ge_courses := (area_results.map fun r => r.completed_courses.map (·.code)).flatten
  let total_units := sumUnits (completed.filter fun course => ge_courses.contains course.code)
  { pattern_name := pattern.pattern_name.getD pattern_key, pattern_key := pattern_key,
    areas := area_results, overall_satisfied := overall_satisfied,
    total_units_completed := total_units }

/-! ## Recommendation engine (`engines/recommendation.py`) -/

/-- One catalog entry returned by `get_courses_for_ge_area`. -/
structure CourseInfo where
  code : String
  title : String := ""
  ge_areas : List String := []
deriving DecidableEq, Repr

/-- A recommended course option.  The prerequisite/units/catalog enrichment
attached per option does not influence which options are listed and is not
carried. -/
structure CourseOption where
  code : String
  title : String := ""
  ge_areas : List String := []
deriving DecidableEq, Repr

/-- `AreaRecommendation` (courses_needed may go negative in Python ints). -/
structure AreaRecommendation where
  area_code : String
  area_name : String
  courses_needed : Int
  available_courses : List CourseOption
  subarea_code : String := ""
deriving DecidableEq, Repr

/-- `CourseRecommendationEngine._recommend_for_area`: filter the area's
catalog courses, skipping the student's own courses and already-used
courses — the latter with the 3B/6A double-count exception — then sort by
code; an empty option list yields no recommendation. -/
def recommend_for_area (getCourses : String → List CourseInfo)
    (area_code area_name : String) (courses_needed : Int)
    (all_student_codes used_courses : List String)
    (is_subarea : Bool) : Option AreaRecommendation :=
  let available := getCourses area_code
  let course_options := available.filterMap fun ci =>
    if all_student_codes.contains ci.code then none
    else if used_courses.contains ci.code
        && !((area_code == "3B" || area_code == "6A")
          && (ci.ge_areas.contains "3B" || ci.ge_areas.contains "6A")) then none
    else some { code := ci.code, title := ci.title, ge_areas := ci.ge_areas : CourseOption }
  let course_options := sortByLe (fun a b => strLe a.code b.code) course_options
  if course_options = [] then none
  else
    some { area_code := area_code, area_name := area_name, courses_needed := courses_needed,
           available_courses := course_options,
           subarea_code := if is_subarea then area_code else "" }

/-- The `used_courses` set of `recommend_ge_courses`: codes of every course
already matched (completed or pending) to any GE area of the audit. -/
def used_courses_of (areas : List AreaAuditResult) : List String :=
  (areas.map fun area =>
    area.completed_courses.map (·.code) ++ area.pending_courses.map (·.code)).flatten

/-- `CourseRecommendationEngine.recommend_ge_courses`.  For each
unsatisfied area, either the failing subareas parsed from the notes string
or the area itself are recommended through `_recommend_for_area`; the
pattern-key normalization only selects which catalog `getCourses` reads. -/
def recommend_ge_courses (getCourses : String → List CourseInfo)
    (ge_audit_result : GEAuditOutput) (student : StudentState) : List AreaRecommendation :=
  let completed_codes := student.completed.map (·.code)
  let pending_codes := student.in_progress.map (·.code)
  let all_student_codes := completed_codes ++ pending_codes
  let used_courses := used_courses_of ge_audit_result.areas
  (ge_audit_result.areas.map fun area =>
    if area.is_satisfied then []
    else
      let courses_needed : Int :=
        (area.required_courses : Int) - (area.completed_courses.length : Int)
      if strContains area.notes "Subareas:" then
        let subarea_info := strTrim (((strSplitOn area.notes "Subareas:").getD 1 ""))
        let subarea_parts := strSplitOn subarea_info " | "
        subarea_parts.filterMap fun part =>
          if strContains part "✗" then
            recommend_for_area getCourses (strTrim ((strSplitOn part " ").headD ""))
              area.name 1 all_student_codes used_courses true
          else none
      else
        match recommend_for_area getCourses area.code area.name courses_needed
            all_student_codes used_courses false with
        | some rec => [rec]
        | none => []).flatten

/-! ### Lemmas and theorems for C8 -/

/-- De-duplication only keeps elements of the original list. -/
theorem dedupByCodeAux_subset (l : List Course) (seen : List String) :
    ∀ x ∈ dedupByCodeAux l seen, x ∈ l := by
  induction l generalizing seen with
  | nil =>
    intro x hx
    exact absurd hx (by simp [dedupByCodeAux])
  | cons c rest ih =>
    intro x hx
    unfold dedupByCodeAux at hx
    split_ifs at hx with h
    · exact List.mem_cons_of_mem _ (ih _ x hx)
    · rcases List.mem_cons.mp hx with rfl | hx'
      · exact List.mem_cons_self _ _
      · exact List.mem_cons_of_mem _ (ih _ x hx')

/-- Every course reported by an area audit comes from the student's own
completed (resp. in-progress) list. -/
theorem audit_area_v2_subset (a : String) (ad : AreaData) (comp ip : List Course)
    (key tk : String) :
    (∀ x ∈ (audit_area_v2 a ad comp ip key tk).completed_courses, x ∈ comp) ∧
    (∀ x ∈ (audit_area_v2 a ad comp ip key tk).pending_courses, x ∈ ip) := by
  simp only [audit_area_v2]
  split_ifs with h1 h2
  · exact ⟨fun x hx => absurd hx (List.not_mem_nil x),
      fun x hx => absurd hx (List.not_mem_nil x)⟩
  · unfold audit_area_with_subareas_v2
    dsimp only
    constructor
    · intro x hx
      have hx' := dedupByCodeAux_subset _ _ x hx
      rcases List.mem_flatten.mp hx' with ⟨l, hl, hxl⟩
      rw [List.map_map] at hl
      rcases List.mem_map.mp hl with ⟨sc, _, rfl⟩
      have hxl' : x ∈ comp.filter fun y => course_matches_area y sc key := by
        simpa using hxl
      exact (List.mem_filter.mp hxl').1
    · intro x hx
      have hx' := dedupByCodeAux_subset _ _ x hx
      rcases List.mem_flatten.mp hx' with ⟨l, hl, hxl⟩
      rw [List.map_map] at hl
      rcases List.mem_map.mp hl with ⟨sc, _, rfl⟩
      have hxl' : x ∈ ip.filter fun y => course_matches_area y sc key := by
        simpa using hxl
      exact (List.mem_filter.mp hxl').1
  · exact ⟨fun x hx => (List.mem_filter.mp hx).1, fun x hx => (List.mem_filter.mp hx).1⟩

/-- Every area result of the full GE audit is an `_audit_area_v2` outcome on
the student's own course lists. -/
theorem ge_audit_area_provenance (rules : List (String × GEPattern)) (student : StudentState)
    (ey : Nat) (et ts : String) :
    ∀ area ∈ (ge_audit rules student ey et ts).areas,
      ∃ ac ad key tk, area = audit_area_v2 ac ad student.completed student.in_progress key tk := by
  intro area ha
  simp only [ge_audit] at ha
  rw [mem_sortByLe] at ha
  rcases List.mem_map.mp ha with ⟨q, _, rfl⟩
  exact ⟨q.1, q.2, _, _, rfl⟩

/-- The audit's used-course set is contained in the student's own course
codes. -/
theorem used_subset (rules : List (String × GEPattern)) (student : StudentState)
    (ey : Nat) (et ts : String) :
    ∀ code ∈ used_courses_of (ge_audit rules student ey et ts).areas,
      code ∈ student.completed.map (·.code) ++ student.in_progress.map (·.code) := by
  intro code hc
  unfold used_courses_of at hc
  rcases List.mem_flatten.mp hc with ⟨l, hl, hcl⟩
  rcases List.mem_map.mp hl with ⟨area, harea, rfl⟩
  rcases ge_audit_area_provenance rules student ey et ts area harea with ⟨ac, ad, key, tk, rfl⟩
  rcases List.mem_append.mp hcl with h | h
  · rcases List.mem_map.mp h with ⟨x, hx, rfl⟩
    exact List.mem_append.mpr (Or.inl (List.mem_map.mpr
      ⟨x, (audit_area_v2_subset ac ad student.completed student.in_progress key tk).1 x hx, rfl⟩))
  · rcases List.mem_map.mp h with ⟨x, hx, rfl⟩
    exact List.mem_append.mpr (Or.inr (List.mem_map.mpr
      ⟨x, (audit_area_v2_subset ac ad student.completed student.in_progress key tk).2 x hx, rfl⟩))

/-- The exclusion behaviour of `_recommend_for_area`: a listed option is
never one of the student's own courses, and it can be in the used set only
through the 3B/6A exception. -/
theorem recommend_for_area_exclusion (getCourses : String → List CourseInfo)
    (ac an : String) (cn : Int) (all used : List String) (issub : Bool)
    (rec : AreaRecommendation) (opt : CourseOption)
    (hrec : recommend_for_area getCourses ac an cn all used issub = some rec)
    (hopt : opt ∈ rec.available_courses) :
    opt.code ∉ all ∧
    (opt.code ∈ used →
      (ac = "3B" ∨ ac = "6A") ∧ ("3B" ∈ opt.ge_areas ∨ "6A" ∈ opt.ge_areas)) := by
  simp only [recommend_for_area] at hrec
  split at hrec
  · exact absurd hrec (by simp)
  · have heq := Option.some.inj hrec
    rw [← heq] at hopt
    dsimp only at hopt
    rw [mem_sortByLe] at hopt
    rcases List.mem_filterMap.mp hopt with ⟨ci, _, hf⟩
    by_cases h1 : all.contains ci.code = true
    · rw [if_pos h1] at hf
      exact absurd hf (by simp)
    · rw [if_neg h1] at hf
      by_cases h2 : (used.contains ci.code
          && !((ac == "3B" || ac == "6A")
            && (ci.ge_areas.contains "3B" || ci.ge_areas.contains "6A"))) = true
      · rw [if_pos h2] at hf
        exact absurd hf (by simp)
      · rw [if_neg h2] at hf
        have heq2 := Option.some.inj hf
        subst heq2
        constructor
        · intro hmem
          exact h1 (by simpa using hmem)
        · intro hmemused
          have hu : used.contains ci.code = true := by simpa using hmemused
          simp only [hu, Bool.true_and, Bool.not_eq_true', Bool.not_eq_false] at h2
          simpa using h2

/-- Every recommendation produced by `recommend_ge_courses` comes from a
`_recommend_for_area` call with the student-code set and the audit's
used-course set. -/
theorem recommend_ge_courses_provenance (getCourses : String → List CourseInfo)
    (gar : GEAuditOutput) (student : StudentState) (rec : AreaRecommendation)
    (h : rec ∈ recommend_ge_courses getCourses gar student) :
    ∃ ac an cn issub,
      recommend_for_area getCourses ac an cn
        (student.completed.map (·.code) ++ student.in_progress.map (·.code))
        (used_courses_of gar.areas) issub = some rec := by
  simp only [recommend_ge_courses] at h
  rcases List.mem_flatten.mp h with ⟨l, hl, hrl⟩
  rcases List.mem_map.mp hl with ⟨area, _, rfl⟩
  by_cases hs : area.is_satisfied = true
  · rw [if_pos hs] at hrl
    exact absurd hrl (List.not_mem_nil rec)
  · rw [if_neg hs] at hrl
    by_cases hsub : strContains area.notes "Subareas:" = true
    · rw [if_pos hsub] at hrl
      rcases List.mem_filterMap.mp hrl with ⟨part, _, hf⟩
      by_cases hx : strContains part "✗" = true
      · rw [if_pos hx] at hf
        exact ⟨_, _, _, _, hf⟩
      · rw [if_neg hx] at hf
        exact absurd hf (by simp)
    · rw [if_neg hsub] at hrl
      rcases hcase : recommend_for_area getCourses area.code area.name
          ((area.required_courses : Int) - (area.completed_courses.length : Int))
          (student.completed.map (·.code) ++ student.in_progress.map (·.code))
          (used_courses_of gar.areas) false with _ | r
      · rw [hcase] at hrl
        exact absurd hrl (List.not_mem_nil rec)
      · rw [hcase] at hrl
        rcases List.mem_singleton.mp hrl with rfl
        exact ⟨_, _, _, _, hcase⟩

/-- C8 amended — a course already used to satisfy some GE area never
appears in ANY area's recommendation list produced by
`recommend_ge_courses` on the same student (every used course is one of the
student's own codes and is filtered out before the double-count exception
is consulted); within `_recommend_for_area` itself a listed option is never
a student course, and can be in the used set only when the area is 3B or 6A
and the course is tagged 3B or 6A. -/
theorem C8_used_courses_never_recommended :
    (∀ (getCourses : String → List CourseInfo) (rules : List (String × GEPattern))
        (student : StudentState) (entry_year : Nat) (entry_term target_system : String)
        (rec : AreaRecommendation) (opt : CourseOption),
      rec ∈ recommend_ge_courses getCourses
        (ge_audit rules student entry_year entry_term target_system) student →
      opt ∈ rec.available_courses →
      opt.code ∉ used_courses_of (ge_audit rules student entry_year entry_term target_system).areas) ∧
    (∀ (getCourses : String → List CourseInfo) (ac an : String) (cn : Int)
        (all used : List String) (issub : Bool) (rec : AreaRecommendation) (opt : CourseOption),
      recommend_for_area getCourses ac an cn all used issub = some rec →
      opt ∈ rec.available_courses →
      opt.code ∉ all ∧
      (opt.code ∈ used →
        (ac = "3B" ∨ ac = "6A") ∧ ("3B" ∈ opt.ge_areas ∨ "6A" ∈ opt.ge_areas))) := by
  constructor
  · intro gc rules student ey et ts rec opt hrec hopt hused
    rcases recommend_ge_courses_provenance gc _ student rec hrec with ⟨ac, an, cn, issub, heq⟩
    exact (recommend_for_area_exclusion gc ac an cn _ _ issub rec opt heq hopt).1
      (used_subset rules student ey et ts _ hused)
  · intro gc ac an cn all used issub rec opt hrec hopt
    exact recommend_for_area_exclusion gc ac an cn all used issub rec opt hrec hopt

/-- An in-progress course tagged for both double-count-exempt areas. -/
def c8Course : Course :=
  { code := "SPAN 1", status := CourseStatus.inProgress, igetc := ["3B", "6A"] }

/-- Student with only that in-progress course. -/
def c8Student : StudentState := { completed := [], in_progress := [c8Course] }

/-- A simple area asking for one CSU course. -/
def c8Area : AreaData := { name := "Arts", per_target := [("CSU", { min_courses := some 1 })] }

/-- GE rules with both exempt areas 3B and 6A present. -/
def c8Rules : List (String × GEPattern) :=
  [("IGETC", { areas := [("3B", c8Area), ("6A", c8Area)] })]

/-- Catalog: the course is listed for both 3B and 6A. -/
def c8GetCourses : String → List CourseInfo := fun a =>
  if a = "3B" ∨ a = "6A" then [{ code := "SPAN 1", ge_areas := ["3B", "6A"] }] else []

/-- C8 counterexample — the student's in-progress "SPAN 1" is used (as a
pending match) by both unsatisfied exempt areas 3B and 6A and is listed in
the catalog for both, yet `recommend_ge_courses` returns NO recommendation
at all: the course never appears in either area's list, because the
student-code filter fires before the 3B/6A exception is consulted.  This
refutes "a course tagged for both double-count-exempt areas may appear in
both of those areas' lists simultaneously". -/
theorem C8_counterexample :
    "SPAN 1" ∈ used_courses_of (ge_audit c8Rules c8Student 2023 "Fall" "csu").areas ∧
    (∀ r ∈ (ge_audit c8Rules c8Student 2023 "Fall" "csu").areas, r.is_satisfied = false) ∧
    recommend_ge_courses c8GetCourses (ge_audit c8Rules c8Student 2023 "Fall" "csu")
      c8Student = [] := by
  refine ⟨?_, ?_, ?_⟩ <;> decide

/-- Catalog restricted to area 3B for the standalone witness. -/
def c8wGet : String → List CourseInfo := fun a =>
  if a = "3B" then [{ code := "SPAN 1", ge_areas := ["3B", "6A"] }] else []

/-- The recommendation `_recommend_for_area` produces in the standalone
scenario of the witness. -/
def c8wRec : AreaRecommendation :=
  { area_code := "3B", area_name := "Arts", courses_needed := 1,
    available_courses := [{ code := "SPAN 1", ge_areas := ["3B", "6A"] }],
    subarea_code := "" }

/-- The recommended option of the witness. -/
def c8wOpt : CourseOption := { code := "SPAN 1", ge_areas := ["3B", "6A"] }

/-- Witness for C8's amended theorem: in a standalone `_recommend_for_area`
call whose used set is decoupled from the student's codes, a used course
tagged 3B/6A is admitted for area 3B, and the theorem's guarantees hold. -/
theorem C8_used_courses_never_recommended_witness :
    c8wOpt.code ∉ ([] : List String) ∧
    (c8wOpt.code ∈ ["SPAN 1"] →
      ("3B" = "3B" ∨ "3B" = "6A") ∧ ("3B" ∈ c8wOpt.ge_areas ∨ "6A" ∈ c8wOpt.ge_areas)) :=
  C8_used_courses_never_recommended.2 c8wGet "3B" "Arts" 1 [] ["SPAN 1"] false c8wRec c8wOpt
    (by decide) (by decide)
